import Mathlib

/-!
Shallow embedding of the vendor-portal automation engine of
`src/src/services/installation.service.ts`, and proofs of the frozen claims
about it.  Each definition is translated from the TypeScript source; line
numbers in the doc comments refer to that file unless another file is named.
JavaScript strings are modelled as Lean `String`, JS objects used as
string-keyed records as ordered association lists with assignment semantics,
`undefined`/`null` as `Option`/dedicated constructors, and numbers as
`Int`/`Nat`/`ℚ` as appropriate.
-/

namespace Geonet

/-! ### JS string primitives -/

/-- Character-by-character prefix test on lists of characters. -/
def subAt : List Char → List Char → Bool
  | [], _ => true
  | _ :: _, [] => false
  | a :: as, b :: bs => a = b && subAt as bs

/-- Substring occurrence test on lists of characters. -/
def hasSub (needle : List Char) : List Char → Bool
  | [] => subAt needle []
  | c :: rest => subAt needle (c :: rest) || hasSub needle rest

/-- JS `hay.includes(needle)` (substring containment; every string contains `""`). -/
def jsIncludes (hay needle : String) : Bool := hasSub needle.data hay.data

/-- The whitespace class of JS `\s` restricted to the characters that occur in
the portal's pages: ASCII whitespace plus NBSP. -/
def isJsSpace (c : Char) : Bool :=
  c = ' ' ∨ c = '\t' ∨ c = '\n' ∨ c = '\r' ∨ c = '\x0b' ∨ c = '\x0c' ∨ c = ' '

/-- JS `String.prototype.trim`. -/
def jsTrim (s : String) : String :=
  String.mk (((s.data.dropWhile isJsSpace).reverse.dropWhile isJsSpace).reverse)

/-- JS `toLowerCase` on one character, covering ASCII and the Latin-1 letters
used by the portal's labels. -/
def jsToLowerChar (c : Char) : Char :=
  if 'A' ≤ c ∧ c ≤ 'Z' then Char.ofNat (c.toNat + 32)
  else if 'À' ≤ c ∧ c ≤ 'Þ' ∧ c ≠ '×' then Char.ofNat (c.toNat + 32)
  else c

/-- JS `String.prototype.toLowerCase`. -/
def jsToLowerStr (s : String) : String := String.mk (s.data.map jsToLowerChar)

/-- `normalize('NFD')` followed by `.replace(/[̀-ͯ]/g, '')` for the
Latin repertoire of the portal: precomposed accented letters decompose to
their base letter, and standalone combining marks are removed. -/
def foldDiacriticChar (c : Char) : Option Char :=
  if 0x300 ≤ c.toNat ∧ c.toNat ≤ 0x36f then none
  else some (match c with
    | 'á' | 'à' | 'â' | 'ä' | 'ã' | 'å' => 'a'
    | 'é' | 'è' | 'ê' | 'ë' => 'e'
    | 'í' | 'ì' | 'î' | 'ï' => 'i'
    | 'ó' | 'ò' | 'ô' | 'ö' | 'õ' => 'o'
    | 'ú' | 'ù' | 'û' | 'ü' => 'u'
    | 'ñ' => 'n'
    | 'ç' => 'c'
    | 'ý' | 'ÿ' => 'y'
    | _ => c)

/-- `.replace(/\s+/g, ' ')`: every maximal whitespace run becomes one space.
The flag records whether the previous character was part of a whitespace run. -/
def collapseSpacesAux : Bool → List Char → List Char
  | _, [] => []
  | prevSpace, c :: rest =>
    if isJsSpace c then
      if prevSpace then collapseSpacesAux true rest
      else ' ' :: collapseSpacesAux true rest
    else c :: collapseSpacesAux false rest

/-- `normalizeText` (lines 2022-2029): lowercase, NFD + strip combining marks,
collapse whitespace, trim. -/
def normalizeText (value : String) : String :=
  jsTrim (String.mk (collapseSpacesAux false
    ((jsToLowerStr value).data.filterMap foldDiacriticChar)))

/-- Digit-run accumulator for `extractNumericTokens`; `cur` is the reversed
run currently being read. -/
def numRunsAux : List Char → List Char → List String
  | cur, [] => if cur = [] then [] else [String.mk cur.reverse]
  | cur, c :: rest =>
    if c.isDigit then numRunsAux (c :: cur) rest
    else if cur = [] then numRunsAux [] rest
    else String.mk cur.reverse :: numRunsAux [] rest

/-- `extractNumericTokens` (lines 2370-2373): `value.match(/\d+/g) || []`. -/
def extractNumericTokens (s : String) : List String := numRunsAux [] s.data

/-- Token-run accumulator for `splitTokens`; `cur` is the reversed token
currently being read. -/
def tokenRunsAux : List Char → List Char → List String
  | cur, [] => if cur = [] then [] else [String.mk cur.reverse]
  | cur, c :: rest =>
    if c = ' ' then
      if cur = [] then tokenRunsAux [] rest
      else String.mk cur.reverse :: tokenRunsAux [] rest
    else tokenRunsAux (c :: cur) rest

/-- `s.split(' ').filter(Boolean)`: `split(' ')` cuts at every single space
and `filter(Boolean)` drops the empty pieces, leaving exactly the maximal
space-free runs. -/
def splitTokens (s : String) : List String := tokenRunsAux [] s.data

/-- JS `s.startsWith(pre)`. -/
def jsStartsWith (s pre : String) : Bool := subAt pre.data s.data

/-! ### Similarity scorer -/

/-- `calculateSimilarityScore` (lines 2154-2169).  JS `Set`s of tokens are
modelled as deduplicated lists; the score is exact rational arithmetic. -/
def calculateSimilarityScore (target candidate : String) : ℚ :=
  if target = "" ∨ candidate = "" then 0
  else if jsIncludes candidate target then 1
  else
    let targetTokens := (splitTokens target).dedup
    let candidateTokens := (splitTokens candidate).dedup
    if targetTokens = [] ∨ candidateTokens = [] then 0
    else
      let overlap := (targetTokens.filter (fun t => candidateTokens.contains t)).length
      let unionSize := ((splitTokens target) ++ (splitTokens candidate)).dedup.length
      if unionSize = 0 then 0 else (overlap : ℚ) / (unionSize : ℚ)

/-! ### Select options and the option resolver -/

/-- One `<option>` element.  `value` is `attr('value') || ''`; `title` and
`dataEmail` model the `title` and `data-email`/`data_email`/
`data-tecnico-email`/`data_tecnico_email` attribute alias chain read by the
email fallback; `selected` models presence of the `selected` attribute. -/
structure OptionEl where
  value : String
  text : String
  title : String
  dataEmail : String
  selected : Bool
deriving DecidableEq, Repr

/-- A plain (non-email) option literal. -/
def mkOption (value text : String) : OptionEl := ⟨value, text, "", "", false⟩

/-- Character class `[A-Z0-9._%+-]` of the loose email regex (with `/i`). -/
def isEmailLocalChar (c : Char) : Bool :=
  c.isAlpha ∨ c.isDigit ∨ c = '.' ∨ c = '_' ∨ c = '%' ∨ c = '+' ∨ c = '-'

/-- Character class `[A-Z0-9.-]` of the email regexes (with `/i`). -/
def isEmailDomainChar (c : Char) : Bool :=
  c.isAlpha ∨ c.isDigit ∨ c = '.' ∨ c = '-'

/-- First match of `/[A-Z0-9._%+-]+@[A-Z0-9.-]+/i`: the first `'@'` with at
least one local-class character directly before it and one domain-class
character directly after; the match is the maximal such run on both sides
(regex backtracking can never succeed from any earlier start).  `acc` is the
reversed prefix already scanned. -/
def looseEmailAux : List Char → List Char → Option String
  | _, [] => none
  | acc, c :: rest =>
    if c = '@' then
      let localRun := acc.takeWhile isEmailLocalChar
      let dom := rest.takeWhile isEmailDomainChar
      if localRun ≠ [] ∧ dom ≠ [] then
        some (String.mk (localRun.reverse ++ '@' :: dom))
      else looseEmailAux (c :: acc) rest
    else looseEmailAux (c :: acc) rest

/-- First match of the loose email regex in a string, if any. -/
def extractLooseEmail (s : String) : Option String := looseEmailAux [] s.data

/-- Given the maximal domain-class run `R` after an `'@'`, the greedy split of
`/[A-Z0-9.-]+\.[A-Z]{2,}/i`: the last index `p` with `R[p] = '.'`, at least
one character before it, and at least two letters after it; the match inside
`R` ends with the maximal letter run after that dot. -/
def strictDomainSplit (R : List Char) : Option (List Char) :=
  let p? := (List.range R.length).foldl (fun best p =>
    if R.get? p = some '.' ∧ 1 ≤ p ∧
        ((R.drop (p + 1)).takeWhile Char.isAlpha).length ≥ 2 then some p else best) none
  match p? with
  | none => none
  | some p => some (R.take p ++ '.' :: (R.drop (p + 1)).takeWhile Char.isAlpha)

/-- Scanner for `extractEmailFromText`. -/
def strictEmailAux : List Char → List Char → Option String
  | _, [] => none
  | acc, c :: rest =>
    if c = '@' then
      let localRun := acc.takeWhile isEmailLocalChar
      let dom := rest.takeWhile isEmailDomainChar
      match if localRun ≠ [] then strictDomainSplit dom else none with
      | some d => some (String.mk (localRun.reverse ++ '@' :: d))
      | none => strictEmailAux (c :: acc) rest
    else strictEmailAux (c :: acc) rest

/-- `extractEmailFromText` (lines 2214-2218): first match of
`/[A-Z0-9._%+-]+@[A-Z0-9.-]+\.[A-Z]{2,}/i`, or `''`. -/
def extractEmailFromText (value : String) : String :=
  (strictEmailAux [] value.data).getD ""

/-- The email variants prepared by `findOptionId` for an email-like target
(lines 2059-2078): the normalized loose-email match (or the whole trimmed
input) plus, when the domain has a dot, a variant with the TLD stripped. -/
def targetEmailVariantsOf (optionName : String) : List String :=
  let raw := jsTrim optionName
  let lower := match extractLooseEmail raw with
    | some m => normalizeText m
    | none => normalizeText raw
  let parts := lower.splitOn "@"
  let withVariant :=
    match parts with
    | [loc, domain] =>
      let domainHead := ((domain.splitOn ".").filter (fun t => t ≠ "")).headD ""
      if domainHead ≠ "" ∧ domainHead ≠ domain then [lower, loc ++ "@" ++ domainHead]
      else [lower]
    | _ => [lower]
  withVariant.dedup

/-- The combined score `findOptionId` assigns to one option (lines 2104-2112):
the similarity score, plus `0.4` when the target has a numeric token shared
with the option's normalized text. -/
def optionScore (target : String) (o : OptionEl) : ℚ :=
  let normalizedText := normalizeText o.text
  let base := calculateSimilarityScore target normalizedText
  let targetNumbers := extractNumericTokens target
  if targetNumbers ≠ [] ∧
      (targetNumbers.filter (fun n => (extractNumericTokens normalizedText).contains n)) ≠ [] then
    base + (2 : ℚ) / 5
  else base

/-- Running best-candidate state of `findOptionId`. -/
structure BestOption where
  value : String
  text : String
  score : ℚ
deriving Repr

/-- One iteration of the main option loop of `findOptionId` (lines 2080-2120). -/
def findOptionStep (targetIsEmail : Bool) (variants : List String) (target : String)
    (st : BestOption) (o : OptionEl) : BestOption :=
  if o.value = "" then st
  else
    let normalizedText := normalizeText o.text
    let emailHit :=
      if targetIsEmail then
        let optEmailLoose :=
          match extractLooseEmail o.text with
          | some e => some e
          | none => match extractLooseEmail o.title with
            | some e => some e
            | none => match extractLooseEmail o.dataEmail with
              | some e => some e
              | none => extractLooseEmail o.value
        match optEmailLoose with
        | some e => variants.contains (normalizeText e)
        | none => false
      else false
    if emailHit then ⟨o.value, normalizedText, 1⟩
    else
      let score := optionScore target o
      if score > st.score then ⟨o.value, normalizedText, score⟩ else st

/-- One iteration of the email attribute-scan fallback (lines 2124-2145); every
matching option overwrites the best candidate. -/
def findOptionEmailFallbackStep (target : String) (st : BestOption) (o : OptionEl) : BestOption :=
  if o.value = "" then st
  else
    let combined := o.text ++ " " ++ o.title ++ " " ++ o.dataEmail ++ " " ++ o.value
    let optEmail := extractEmailFromText combined
    if optEmail ≠ "" ∧ normalizeText optEmail = target then ⟨o.value, normalizeText o.text, 1⟩
    else st

/-- `findOptionId` (lines 2049-2152) over the option list of one `<select>`:
email shortcut for `'@'`-containing targets, then best combined
similarity-plus-numeric-bonus score (strict improvement only), then the email
attribute-scan fallback; returns the winning option's `value`, or `''`. -/
def findOptionId (options : List OptionEl) (optionName : String) : String :=
  let target := normalizeText optionName
  let targetIsEmail := jsIncludes optionName "@"
  let variants := if targetIsEmail then targetEmailVariantsOf optionName else []
  let best := options.foldl (findOptionStep targetIsEmail variants target) ⟨"", "", 0⟩
  let best :=
    if targetIsEmail ∧ best.value = "" then
      options.foldl (findOptionEmailFallbackStep target) best
    else best
  best.value

/-! ### Form snapshot extraction -/

/-- An `<input>` element: `name`/`value` are `none` when the attribute is
absent; `ty` is the raw `type` attribute (`''` when absent); `checked` models
`:checked`. -/
structure InputEl where
  name : Option String
  ty : String
  checked : Bool
  value : Option String
deriving Repr

/-- A `<textarea>` element with its text content. -/
structure TextareaEl where
  name : Option String
  text : String
deriving Repr

/-- A `<select>` element; `nameAttr`/`idAttr` are the raw attributes (`''`
when absent), used by `findSelect`'s `[name*=… i], [id*=… i]` selector. -/
structure SelectEl where
  nameAttr : String
  idAttr : String
  opts : List OptionEl
deriving Repr

/-- One parsed HTML form: the document-order lists that
`scope.find('input')`, `scope.find('textarea')` and `scope.find('select')`
iterate. -/
structure FormEl where
  inputs : List InputEl
  textareas : List TextareaEl
  selects : List SelectEl
deriving Repr

/-- JS object property assignment on a string-keyed record modelled as an
ordered association list: replace in place, else append. -/
def setField : List (String × String) → String → String → List (String × String)
  | [], k, v => [(k, v)]
  | (k', v') :: rest, k, v =>
    if k' = k then (k, v) :: rest else (k', v') :: setField rest k v

/-- The select-value computation of `extractFormFields` (lines 2261-2275): the
first `option[selected]`'s value; if that is falsy, the first option with a
non-empty trimmed value whose trimmed text is empty or free of `'---------'`. -/
def extractSelectValue (opts : List OptionEl) : String :=
  let selectedValue := match opts.find? (fun o => o.selected) with
    | some o => o.value
    | none => ""
  if selectedValue ≠ "" then selectedValue
  else
    let firstValid := opts.find? (fun o =>
      let v := jsTrim o.value
      let t := jsTrim o.text
      if v = "" then false
      else if t = "" then true
      else ¬ jsIncludes t "---------")
    match firstValid with
    | some o => o.value
    | none => ""

/-- `extractFormFields` (lines 2226-2281): inputs (skipping nameless,
submit/button/file, unchecked checkboxes/radios, and empty trimmed values),
then textareas (skipping empty trimmed text), then selects (skipping falsy
resolved values). -/
def extractFormFields (form : FormEl) : List (String × String) :=
  let step1 := form.inputs.foldl (fun fields el =>
    match el.name with
    | none => fields
    | some name =>
      let ty := jsToLowerStr el.ty
      if ty = "submit" ∨ ty = "button" ∨ ty = "file" then fields
      else if (ty = "checkbox" ∨ ty = "radio") ∧ ¬ el.checked then fields
      else
        let value := jsTrim (el.value.getD "")
        if value ≠ "" then setField fields name value else fields) []
  let step2 := form.textareas.foldl (fun fields el =>
    match el.name with
    | none => fields
    | some name =>
      let value := jsTrim el.text
      if value ≠ "" then setField fields name value else fields) step1
  form.selects.foldl (fun fields el =>
    if el.nameAttr = "" then fields
    else
      let value := extractSelectValue el.opts
      if value ≠ "" then setField fields el.nameAttr value else fields) step2

/-- The field entry the snapshot rules assign to one `<input>` element:
nameless inputs and submit/button/file controls contribute nothing,
checkboxes/radios contribute only when checked, and an input is represented
only when its trimmed value is non-empty, mapped to that trimmed value. -/
def inputFieldRule (el : InputEl) : Option (String × String) :=
  match el.name with
  | none => none
  | some name =>
    let ty := jsToLowerStr el.ty
    if ty = "submit" ∨ ty = "button" ∨ ty = "file" then none
    else if (ty = "checkbox" ∨ ty = "radio") ∧ ¬ el.checked then none
    else
      let value := jsTrim (el.value.getD "")
      if value ≠ "" then some (name, value) else none

/-- The field entry the snapshot rules assign to one `<textarea>`:
represented only when its trimmed text is non-empty, mapped to that trimmed
text. -/
def textareaFieldRule (el : TextareaEl) : Option (String × String) :=
  match el.name with
  | none => none
  | some name =>
    let value := jsTrim el.text
    if value ≠ "" then some (name, value) else none

/-- The field entry the snapshot rules assign to one `<select>`: the selected
option's value, or the first option with a non-empty trimmed value whose
trimmed text is empty or free of the dash-row placeholder; represented only
when that resolved value is non-empty. -/
def selectFieldRule (el : SelectEl) : Option (String × String) :=
  if el.nameAttr = "" then none
  else
    let value := extractSelectValue el.opts
    if value ≠ "" then some (el.nameAttr, value) else none

/-- All field entries the snapshot rules assign to a form, in extraction
order: inputs, then textareas, then selects. -/
def formFieldRules (form : FormEl) : List (String × String) :=
  form.inputs.filterMap inputFieldRule ++ form.textareas.filterMap textareaFieldRule ++
    form.selects.filterMap selectFieldRule

/-- `getSelectedOptionValue` (lines 2181-2203); unlike `extractFormFields`'s
select branch, the first-valid filter here uses the raw (untrimmed) value and
text.  `none` is the empty cheerio selection. -/
def getSelectedOptionValue (sel : Option SelectEl) : String :=
  match sel with
  | none => ""
  | some s =>
    let value := match s.opts.find? (fun o => o.selected) with
      | some o => o.value
      | none => ""
    if value ≠ "" then value
    else
      let firstValid := s.opts.find? (fun o =>
        if o.value = "" then false
        else if o.text = "" then true
        else ¬ jsIncludes o.text "---------")
      match firstValid with
      | some o => o.value
      | none => ""

/-- Case-insensitive attribute containment, as in the `[name*="…" i]` selector. -/
def containsCI (hay token : String) : Bool := jsIncludes (jsToLowerStr hay) (jsToLowerStr token)

/-- `findSelect` (lines 2042-2047): first `<select>` whose `name` or `id`
contains the token case-insensitively, else the document's first `<select>`,
else the empty selection. -/
def findSelect (selects : List SelectEl) (token : String) : Option SelectEl :=
  match selects.find? (fun s => containsCI s.nameAttr token ∨ containsCI s.idAttr token) with
  | some s => some s
  | none => selects.head?

/-- The option list of a possibly-empty select selection. -/
def optsOf : Option SelectEl → List OptionEl
  | none => []
  | some s => s.opts

/-! ### First-available-IP scanner -/

/-- JS word character (`\w`), for the `\b` boundaries of the IP regex. -/
def isWordChar (c : Char) : Bool := c.isAlpha ∨ c.isDigit ∨ c = '_'

/-- Attempt to match `(?:\d{1,3}\.){3}\d{1,3}` at the head of `cs`, where each
digit run is maximal (a longer run can never match, because backtracking
inside a run always meets another digit). -/
def matchIpAt (cs : List Char) : Option (List Char) :=
  let r1 := cs.takeWhile Char.isDigit
  let rest1 := cs.dropWhile Char.isDigit
  if r1.length < 1 ∨ 3 < r1.length then none
  else match rest1 with
  | '.' :: cs2 =>
    let r2 := cs2.takeWhile Char.isDigit
    let rest2 := cs2.dropWhile Char.isDigit
    if r2.length < 1 ∨ 3 < r2.length then none
    else match rest2 with
    | '.' :: cs3 =>
      let r3 := cs3.takeWhile Char.isDigit
      let rest3 := cs3.dropWhile Char.isDigit
      if r3.length < 1 ∨ 3 < r3.length then none
      else match rest3 with
      | '.' :: cs4 =>
        let r4 := cs4.takeWhile Char.isDigit
        let rest4 := cs4.dropWhile Char.isDigit
        if r4.length < 1 ∨ 3 < r4.length then none
        else match rest4 with
        | [] => some (r1 ++ '.' :: r2 ++ '.' :: r3 ++ '.' :: r4)
        | c :: _ =>
          if isWordChar c then none
          else some (r1 ++ '.' :: r2 ++ '.' :: r3 ++ '.' :: r4)
      | _ => none
    | _ => none
  | _ => none

/-- Left-to-right scan for the first IPv4-looking match with a word boundary
before it; `prevIsWord` records whether the previous character was a word
character. -/
def scanIpAux : Bool → List Char → Option String
  | _, [] => none
  | prevIsWord, c :: rest =>
    if c.isDigit ∧ ¬ prevIsWord then
      match matchIpAt (c :: rest) with
      | some m => some (String.mk m)
      | none => scanIpAux (isWordChar c) rest
    else scanIpAux (isWordChar c) rest

/-- `findFirstAvailableIp` (lines 2375-2381): the first
`/\b(?:\d{1,3}\.){3}\d{1,3}\b/` match in the page's body text, or `none`. -/
def findFirstAvailableIp (bodyText : String) : Option String :=
  if bodyText = "" then none
  else scanIpAux false bodyText.data

/-! ### Resilient request executor (`withRetry`) -/

/-- An HTTP response as the retry and session code see it.  `status` is the
numeric `status` field when one is present (`typeof result?.status ===
'number'`); `retryAfterSecs` is the `retry-after` header after JS
`Number(...)` conversion, `none` standing for an absent or non-numeric
header; `location` is the `location` header or `''`; `bodyHtml` is the
response `data` when it is a string. -/
structure HttpResp where
  status : Option Int
  retryAfterSecs : Option Int
  location : String
  bodyHtml : Option String
deriving Repr, DecidableEq

/-- A response with only a status, as most retry scenarios need. -/
def respWithStatus (s : Int) : HttpResp := ⟨some s, none, "", none⟩

/-- Outcome of one invocation of the wrapped call: the promise resolves with a
result, or rejects with an error that may carry an attached response.  `tag`
distinguishes otherwise-identical thrown errors. -/
inductive CallOutcome where
  | ok (r : HttpResp)
  | thrown (tag : Nat) (response : Option HttpResp)
deriving Repr, DecidableEq

/-- An error as `withRetry` handles it: either the error it synthesizes for a
returned retryable status (lines 2738-2741), or an error thrown by the call. -/
inductive JsError where
  | retryableStatus (r : HttpResp)
  | fromCall (tag : Nat) (response : Option HttpResp)
deriving Repr, DecidableEq

/-- `err?.response`. -/
def JsError.response : JsError → Option HttpResp
  | .retryableStatus r => some r
  | .fromCall _ resp => resp

/-- `isRetryableStatus` (lines 2716-2718); `none` models a missing/non-numeric
status, for which every `===` comparison is false. -/
def isRetryableStatus : Option Int → Bool
  | some s => s = 429 ∨ s = 502 ∨ s = 503 ∨ s = 504
  | none => false

/-- `parseRetryAfterMs` (lines 2720-2729) on the pre-parsed header value. -/
def parseRetryAfterMs : Option Int → Int
  | none => 0
  | some seconds => if seconds ≤ 0 then 0 else seconds * 1000

/-- The try-block of one attempt (lines 2732-2744): a resolved result with a
retryable status is converted into a thrown error carrying the response. -/
def attemptStep : CallOutcome → Except JsError HttpResp
  | .ok r => if isRetryableStatus r.status then .error (.retryableStatus r) else .ok r
  | .thrown tag resp => .error (.fromCall tag resp)

/-- The error an attempt produces, if any. -/
def stepErr (o : CallOutcome) : Option JsError :=
  match attemptStep o with
  | .ok _ => none
  | .error e => some e

/-- The wait (line 2755-2757) computed before retrying after the error `e` of
attempt number `attempt`. -/
def retryWaitMs (baseDelayMs : Int) (attempt : Nat) (e : JsError) : Int :=
  let status := e.response.bind (fun r => r.status)
  let retryAfterMs := parseRetryAfterMs (e.response.bind (fun r => r.retryAfterSecs))
  let backoffMs := baseDelayMs * 2 ^ (attempt - 1)
  if status = some 429 then max 15000 retryAfterMs else max backoffMs retryAfterMs

/-- The attempt loop of `withRetry` (lines 2731-2761), recursing on the number
of remaining attempts; returns the settled result together with the list of
waits performed between attempts.  The exhausted-fuel case corresponds to the
unreachable `throw lastError` after the loop (line 2763), whose `lastError`
is undefined when `attempts = 0`. -/
def withRetryAux (call : Nat → CallOutcome) (attempts : Nat) (baseDelayMs : Int) :
    Nat → Nat → Except JsError HttpResp × List Int
  | _, 0 => (.error (.fromCall 0 none), [])
  | attempt, remaining + 1 =>
    match attemptStep (call attempt) with
    | .ok r => (.ok r, [])
    | .error e =>
      let status := e.response.bind (fun r => r.status)
      if ¬ isRetryableStatus status ∨ attempt = attempts then (.error e, [])
      else
        let wait := retryWaitMs baseDelayMs attempt e
        let rest := withRetryAux call attempts baseDelayMs (attempt + 1) remaining
        (rest.1, wait :: rest.2)

/-- `withRetry` (lines 2713-2764).  `call attempt` is the outcome of the
`attempt`-th invocation of `fn` (attempts are numbered from 1). -/
def withRetry (call : Nat → CallOutcome) (attempts : Nat) (baseDelayMs : Int) :
    Except JsError HttpResp × List Int :=
  withRetryAux call attempts baseDelayMs 1 attempts

/-- The default parameters of `withRetry`'s signature (line 2713). -/
def defaultRetryAttempts : Nat := 3

/-- The default `baseDelayMs` of `withRetry`'s signature (line 2713). -/
def defaultRetryBaseDelayMs : Int := 1000

/-- The attempt count `createGeonetClient` passes to `withRetry` for the two
portal login calls (lines 2788-2793 and 2810-2825). -/
def geonetLoginRetryAttempts : Nat := 6

/-- The base delay `createGeonetClient` passes to `withRetry` for the two
portal login calls (lines 2788-2793 and 2810-2825). -/
def geonetLoginRetryBaseDelayMs : Int := 2000

/-! ### Session-expiry detection and single relogin -/

/-- `isGeonetLoginResponse` (lines 248-267). -/
def isGeonetLoginResponse (r : HttpResp) : Bool :=
  let redirectStatus := r.status = some 301 ∨ r.status = some 302 ∨ r.status = some 303 ∨
    r.status = some 307 ∨ r.status = some 308
  if redirectStatus ∧ jsIncludes r.location "/accounts/login" then true
  else match r.bodyHtml with
    | none => false
    | some data =>
      let html := jsToLowerStr data
      if jsIncludes html "/accounts/login" ∧
          (jsIncludes html "name=\"login\"" ∨ jsIncludes html "name=\"password\"") then true
      else if jsIncludes html "id=\"login\"" ∧ jsIncludes html "csrfmiddlewaretoken" ∧
          jsIncludes html "password" then true
      else false

/-- An error thrown by the workflow code: its HTTP-ish `statusCode` (absent on
the bare retryable-status errors), the `isGeonetAuthError` flag, and the
message. -/
structure GeoErr where
  statusCode : Option Int
  isGeonetAuthError : Bool
  msg : String
deriving Repr, DecidableEq

/-- `throwIfGeonetAuthRequired` (lines 269-278). -/
def throwIfGeonetAuthRequired (r : HttpResp) (label : String) : Except GeoErr Unit :=
  if isGeonetLoginResponse r then
    .error ⟨some 401, true, label ++ ": sesión Geonet expirada / requiere login"⟩
  else .ok ()

/-- `withGeonetRelogin` (lines 280-302): run the step with the cached client;
on an error flagged `isGeonetAuthError`, invalidate the session and run it
exactly once more with a fresh client (`fn n` is the outcome of the `n`-th
attempt); any other error, and any error of the second attempt, propagates. -/
def withGeonetRelogin {α : Type} (fn : Nat → Except GeoErr α) : Except GeoErr α :=
  match fn 1 with
  | .ok a => .ok a
  | .error e => if e.isGeonetAuthError then fn 2 else .error e

/-! ### Installation requests and fuzzy record lookup -/

/-- An `InstallationRequest` row as the activation workflow reads it.  `plan`
is `none`/`some ""` for a falsy plan column; `agreedInstallationDate` is
`none` for NULL and `some t` for a date value (the date itself abstracted to
a number — only nullness matters to the workflow's control flow).  The
remaining columns are pass-through payload for the POST body and are not
modelled. -/
structure InstRecord where
  id : Nat
  firstName : String
  lastName : String
  plan : Option String
  agreedInstallationDate : Option Nat
deriving Repr, DecidableEq

/-- `repo.findOne({ where: { id } })` (lines 2706-2710). -/
def findRecordById (db : List InstRecord) (id : Nat) : Option InstRecord :=
  db.find? (fun r => r.id = id)

/-- Descending-by-id insertion, for `sortByIdDesc`. -/
def insertDescById (r : InstRecord) : List InstRecord → List InstRecord
  | [] => [r]
  | x :: xs => if r.id ≥ x.id then r :: x :: xs else x :: insertDescById r xs

/-- Insertion sort, descending by id — the `ORDER BY r.id DESC` of the record
query (line 2654). -/
def sortByIdDesc (db : List InstRecord) : List InstRecord :=
  db.foldr insertDescById []

/-- The in-memory scan of `findInstallationRequestIdByClientName`
(lines 2676-2703): exact/containment match returns immediately; otherwise the
best token-overlap score is tracked (strict improvement only) and accepted at
the end when at least `0.6`. -/
def findBestClientAux (target : String) (targetTokens : List String) :
    List InstRecord → Option Nat → ℚ → Option Nat
  | [], bestId, bestScore =>
    match bestId with
    | some i => if bestScore ≥ (3 : ℚ) / 5 then some i else none
    | none => none
  | r :: rest, bestId, bestScore =>
    let fullName := normalizeText (jsTrim (r.firstName ++ " " ++ r.lastName))
    if fullName = "" then findBestClientAux target targetTokens rest bestId bestScore
    else if fullName = target ∨ jsIncludes fullName target then some r.id
    else
      if targetTokens ≠ [] then
        let nameTokens := splitTokens fullName
        let overlap := (targetTokens.filter (fun t => nameTokens.contains t)).length
        let score := (overlap : ℚ) / (targetTokens.length : ℚ)
        if score > bestScore then findBestClientAux target targetTokens rest (some r.id) score
        else findBestClientAux target targetTokens rest bestId bestScore
      else findBestClientAux target targetTokens rest bestId bestScore

/-- `findInstallationRequestIdByClientName` (lines 2642-2704).  The SQL
pre-filter (`LOWER(CONCAT(firstName, " ", lastName)) LIKE %token%` for any
token, ordered by id descending, limit 200) is modelled on the row list. -/
def findInstallationRequestIdByClientName (db : List InstRecord) (clientName : String) :
    Option Nat :=
  let target := normalizeText clientName
  if target = "" then none
  else
    let targetTokens := splitTokens target
    let rows := sortByIdDesc db
    let rows := if targetTokens ≠ [] then
        rows.filter (fun r =>
          targetTokens.any (fun tok =>
            jsIncludes (jsToLowerStr (r.firstName ++ " " ++ r.lastName)) tok))
      else rows
    let requests := rows.take 200
    findBestClientAux target targetTokens requests none 0

/-! ### Activation workflow -/

/-- One anchor of the pending-activations listing together with the text of
its closest `<tr>`. -/
structure Anchor where
  href : String
  rowText : String
deriving Repr

/-- The parse of one portal HTML page as the activation workflow reads it:
the extracted `csrfmiddlewaretoken` value (`''` when absent), the page's
`<select>`s in document order, and the `<body>` text. -/
structure ActPage where
  csrf : String
  selects : List SelectEl
  bodyText : String
deriving Repr

/-- The environment an activation attempt runs against: the record store and,
for each HTTP exchange of the protocol, the settled response and (for GETs)
the parse of its body. -/
structure LookupEnv where
  db : List InstRecord
  listResp : HttpResp
  anchors : List Anchor
  actResp : HttpResp
  actPage : ActPage
  submitGetResp : HttpResp
  submitPage : ActPage
  postResp : HttpResp

/-- The parameters of `lookupPreinstallationActivation` (lines 377-384);
absent optional arguments are `none`. -/
structure LookupParams where
  clientName : String
  technicianName : String
  planName : Option String
  installationRequestId : Option Nat
  zonaName : Option String
  routerName : Option String
  apName : Option String

/-- The result record of `lookupPreinstallationActivation` (lines 385-391). -/
structure LookupResult where
  activationLink : String
  technicianId : String
  planId : String
  firstAvailableIp : Option String
  activationPostStatus : Option Int
deriving Repr

/-- The row-filter loop of `lookupPreinstallationActivation` (lines 445-456):
the first anchor matching `a[href*="/preinstalacion/activar/"]` whose row text
contains every normalized client-name token (vacuously all of them when the
token list is empty); relative links are resolved against the portal origin.
Returns `''` when no row matches. -/
def selectActivationLink (anchors : List Anchor) (clientName : String) : String :=
  let targetClient := normalizeText clientName
  let targetTokens := splitTokens targetClient
  match anchors.find? (fun a =>
      jsIncludes a.href "/preinstalacion/activar/" ∧
      (targetTokens = [] ∨
        targetTokens.all (fun t => jsIncludes (normalizeText a.rowText) t))) with
  | none => ""
  | some a => if jsStartsWith a.href "http" then a.href else "https://admin.geonet.cl" ++ a.href

/-- The repeated response guard used after every portal fetch:
`throwIfRetryableStatus` (lines 2205-2212), `throwIfGeonetAuthRequired`
(lines 269-278), then the `status < 200 || status >= 300` check, each
throwing in that order.  (In the source a retryable status would already
have made `withRetry` throw; both paths classify the response identically.) -/
def guardPageResp (r : HttpResp) (label : String) : Except GeoErr Unit :=
  if isRetryableStatus r.status then
    .error ⟨none, false, label ++ " retryable status"⟩
  else if isGeonetLoginResponse r then
    .error ⟨some 401, true, label ++ ": sesión Geonet expirada / requiere login"⟩
  else match r.status with
    | none => .ok ()
    | some s => if s < 200 ∨ s ≥ 300 then .error ⟨some 502, false, label ++ " status"⟩ else .ok ()

/-- The technician id the activation form resolution computes (line 488). -/
def lookupTechnicianId (env : LookupEnv) (p : LookupParams) : String :=
  findOptionId (optsOf (findSelect env.actPage.selects "tecnico")) p.technicianName

/-- The record id the workflow resolves first (lines 392-399): the explicit
parameter, else the fuzzy client-name lookup. -/
def lookupResolvedRequestId (env : LookupEnv) (p : LookupParams) : Option Nat :=
  match p.installationRequestId with
  | some i => some i
  | none => findInstallationRequestIdByClientName env.db p.clientName

/-- The effective plan name (lines 393, 401-406): the caller's `planName`,
overridden by the resolved record's `plan` column whenever that is truthy. -/
def lookupEffectivePlanName (env : LookupEnv) (p : LookupParams) : Option String :=
  let fromRecord := (lookupResolvedRequestId env p).bind (fun i =>
    (findRecordById env.db i).bind (fun r => r.plan))
  match fromRecord with
  | some s => if s ≠ "" then some s else p.planName
  | none => p.planName

/-- The plan id the activation form resolution computes (line 493). -/
def lookupPlanId (env : LookupEnv) (p : LookupParams) : String :=
  findOptionId (optsOf (findSelect env.actPage.selects "plan"))
    ((lookupEffectivePlanName env p).getD "")

/-- Resolution of the router/zona/AP `<select>`s in `submitGeonetActivation`
(lines 2460-2495): when a non-empty name hint was given and the select is
non-empty, `findOptionId`, falling back to the currently selected value;
otherwise directly the currently selected value. -/
def resolveSelectValue (sel : Option SelectEl) (nameHint : Option String) : String :=
  match nameHint, sel with
  | some hint, some s =>
    if hint ≠ "" then
      let v := findOptionId s.opts hint
      if v = "" then getSelectedOptionValue sel else v
    else getSelectedOptionValue sel
  | _, _ => getSelectedOptionValue sel

/-- `submitGeonetActivation` (lines 2397-2640).  The first component records
whether the activation POST was performed; the second is the settled result
(the POST's status) or the thrown error.  The construction of the POST body
(lines 2497-2563, pure marshalling of record fields into form entries) does
not influence control flow and is elided. -/
def submitGeonetActivation (env : LookupEnv) (technicianId planId : String)
    (firstAvailableIp : Option String) (installationRequestId : Nat)
    (zonaName routerName apName : Option String) : Bool × Except GeoErr (Option Int) :=
  match firstAvailableIp with
  | none => (false, .error ⟨some 404, false, "No se encontró una IP disponible"⟩)
  | some _ =>
    match findRecordById env.db installationRequestId with
    | none => (false, .error ⟨some 404, false, "InstallationRequest no encontrada"⟩)
    | some request =>
      if request.agreedInstallationDate = none then
        (false, .error ⟨some 400, false, "agreedInstallationDate es requerido"⟩)
      else
        match guardPageResp env.submitGetResp "GET activacion (csrf)" with
        | .error e => (false, .error e)
        | .ok _ =>
          if env.submitPage.csrf = "" then
            (false, .error ⟨some 502, false, "No se encontró csrfmiddlewaretoken"⟩)
          else
            let _routerValue := resolveSelectValue
              (findSelect env.submitPage.selects "router_cliente") routerName
            let _zonaValue := resolveSelectValue
              (findSelect env.submitPage.selects "zona_cliente") zonaName
            let _apValue := resolveSelectValue
              (findSelect env.submitPage.selects "ap_cliente") apName
            -- POST activacion is performed here.
            match (if isRetryableStatus env.postResp.status then
                Except.error (⟨none, false, "POST activacion retryable status"⟩ : GeoErr)
              else throwIfGeonetAuthRequired env.postResp "POST activacion") with
            | .error e => (true, .error e)
            | .ok _ => (true, .ok env.postResp.status)

/-- One attempt of `lookupPreinstallationActivation` (lines 377-522): record
resolution and plan precondition, then — inside the relogin wrapper — the
listing fetch, row selection, activation-form fetch, technician/plan/IP
resolution, and the hand-off to `submitGeonetActivation`.  The boolean
records whether the activation POST was performed. -/
def lookupActivationCore (env : LookupEnv) (p : LookupParams) :
    Bool × Except GeoErr LookupResult :=
  match lookupResolvedRequestId env p with
  | none => (false, .error ⟨some 404, false, "No se encontró la InstallationRequest en la base de datos"⟩)
  | some resolvedRequestId =>
    match findRecordById env.db resolvedRequestId with
    | none => (false, .error ⟨some 404, false, "No se encontró la InstallationRequest en la base de datos"⟩)
    | some _ =>
      match lookupEffectivePlanName env p with
      | none => (false, .error ⟨some 400, false, "planName no encontrado. Debe existir en la columna plan del cliente"⟩)
      | some effectivePlanName =>
        if effectivePlanName = "" then
          (false, .error ⟨some 400, false, "planName no encontrado. Debe existir en la columna plan del cliente"⟩)
        else
          match guardPageResp env.listResp "GET preinstalaciones" with
          | .error e => (false, .error e)
          | .ok _ =>
            if selectActivationLink env.anchors p.clientName = "" then
              (false, .error ⟨some 404, false, "No se encontró el enlace de activación para el cliente indicado"⟩)
            else
              match guardPageResp env.actResp "GET activacion" with
              | .error e => (false, .error e)
              | .ok _ =>
                if lookupTechnicianId env p = "" then
                  (false, .error ⟨some 404, false, "No se encontró el técnico indicado en la preinstalación"⟩)
                else if lookupPlanId env p = "" then
                  (false, .error ⟨some 404, false, "No se encontró el plan indicado en la preinstalación"⟩)
                else
                  match submitGeonetActivation env (lookupTechnicianId env p) (lookupPlanId env p)
                      (findFirstAvailableIp env.actPage.bodyText)
                      resolvedRequestId p.zonaName p.routerName p.apName with
                  | (posted, .error e) => (posted, .error e)
                  | (posted, .ok st) =>
                    (posted, .ok ⟨selectActivationLink env.anchors p.clientName,
                      lookupTechnicianId env p, lookupPlanId env p,
                      findFirstAvailableIp env.actPage.bodyText, st⟩)

/-! ### Partial-update merging (`editarInstalacionGeonet`, lines 1107-1190) -/

/-- A value of the caller-supplied `updates` object: JS `undefined` (skipped),
`null` (clear the field), or a value whose `String(...)` rendering is `s`. -/
inductive UpdateVal where
  | undef
  | nullv
  | str (s : String)
deriving Repr, DecidableEq

/-- `.replace(/[-_\s]+/g, '')`. -/
def stripJoiners (s : String) : String :=
  String.mk (s.data.filter (fun c => ¬ (c = '-' ∨ c = '_' ∨ isJsSpace c)))

/-- `mapUpdateToField` (lines 1114-1161).  `fields` is the live `baseFields`
object (for the `hasOwnProperty` direct match), `baseKeys` the key list
snapshotted before the update loop.  Returns `none` when no mapping is found
(the caller then uses the literal key). -/
def mapUpdateToField (fields : List (String × String)) (baseKeys : List String)
    (updKey : String) : Option String :=
  if (fields.lookup updKey).isSome then some updKey
  else
    let updNorm := stripJoiners (normalizeText updKey)
    let tecnicoCandidate :=
      if jsIncludes updNorm "tecnico" ∨ jsIncludes updNorm "technician" ∨
          jsIncludes updNorm "technicianname" then
        baseKeys.find? (fun k => jsIncludes (normalizeText k) "tecnico")
      else none
    match tecnicoCandidate with
    | some c => some c
    | none =>
      let instalCandidate :=
        if jsIncludes updNorm "inicio" ∨ jsIncludes updNorm "instal" ∨
            jsIncludes updNorm "instalacion" then
          baseKeys.find? (fun k =>
            let nk := stripJoiners (normalizeText k)
            jsIncludes nk "instal" ∨ jsIncludes nk "instalacion" ∨ jsIncludes nk "instalaci")
        else none
      match instalCandidate with
      | some c => some c
      | none =>
        let fechaCandidate :=
          if jsIncludes updNorm "fecha" ∨ jsIncludes updNorm "date" then
            match baseKeys.find? (fun k =>
                let nk := stripJoiners (normalizeText k)
                jsIncludes nk "fecha" ∧ (jsIncludes nk "instal" ∨ jsIncludes nk "instalaci")) with
            | some c => some c
            | none => baseKeys.find? (fun k =>
                let nk := normalizeText k
                jsIncludes nk "fecha" ∨ jsIncludes nk "date")
          else none
        match fechaCandidate with
        | some c => some c
        | none =>
          let best := baseKeys.foldl (fun (b : Option (String × ℚ)) k =>
            let score := calculateSimilarityScore updNorm (stripJoiners (normalizeText k))
            match b with
            | none => some (k, score)
            | some (_, bs) => if score > bs then some (k, score) else b) none
          match best with
          | some (bk, bs) => if bs ≥ (1 : ℚ) / 2 then some bk else none
          | none => none

/-- One iteration of the update-application loop of `editarInstalacionGeonet`
(lines 1164-1178): a non-`undefined` update entry is mapped onto a form field
(falling back to the literal key), `null` becomes `''` and any other value
its string rendering; the accumulator pairs the live `baseFields` object with
the `finalSentPairs` record of fields actually applied. -/
def mergeStep (baseKeys : List String)
    (acc : List (String × String) × List (String × String))
    (kv : String × UpdateVal) : List (String × String) × List (String × String) :=
  if kv.fst = "" then acc
  else match kv.snd with
  | .undef => acc
  | .nullv =>
    let fieldName := (mapUpdateToField acc.fst baseKeys kv.fst).getD kv.fst
    (setField acc.fst fieldName "", setField acc.snd fieldName "")
  | .str s =>
    let fieldName := (mapUpdateToField acc.fst baseKeys kv.fst).getD kv.fst
    (setField acc.fst fieldName s, setField acc.snd fieldName s)

/-- The update-application loop of `editarInstalacionGeonet`
(lines 1107-1178): `baseKeys` is snapshotted from the snapshot before the
loop (line 1111), and every update entry is folded over the snapshot. -/
def mergeApply (base : List (String × String)) (updates : List (String × UpdateVal)) :
    List (String × String) × List (String × String) :=
  updates.foldl (mergeStep (base.map Prod.fst)) (base, [])

/-! ### `createRequest` and the Wisphub notification (lines 304-368, 1914-2010) -/

/-- How the axios call inside `notifyWisphub` can end, given that the Wisphub
API config is present: a settled response (any status — `validateStatus` is
`() => true`), a rejection whose error carries `response.status`, or a
rejection without an attached response (e.g. a network failure). -/
inductive WisphubCall where
  | configMissing
  | responded (status : Int)
  | threwWithStatus (status : Int)
  | threwNoResponse
deriving Repr, DecidableEq

/-- The `status`/`skipped` fields of `notifyWisphub`'s result
(lines 1914-2009): missing config short-circuits to `{status: null, skipped:
true}`; the catch block maps a rejection to `error?.response?.status ?? null`. -/
structure WisphubResult where
  status : Option Int
  skipped : Bool
deriving Repr, DecidableEq

/-- `notifyWisphub` reduced to its result classification. -/
def notifyWisphub : WisphubCall → WisphubResult
  | .configMissing => ⟨none, true⟩
  | .responded s => ⟨some s, false⟩
  | .threwWithStatus s => ⟨some s, false⟩
  | .threwNoResponse => ⟨none, false⟩

/-- The externally visible state `createRequest` touches: the names of files
on disk and the ids of persisted installation-request rows (a row's contents
are a pass-through of the input and are abstracted to the new row's id). -/
structure CreateState where
  disk : List String
  db : List Nat
deriving Repr, DecidableEq

/-- `createRequest` (lines 304-368): save the buffer-valued uploads, call
`notifyWisphub`, and persist only afterwards.  `files` are the names of the
temporarily saved uploads, `newId` the id the row would get.  Result: the
final state, paired with `some errStatus` when the Wisphub error is thrown
(the catch block has then deleted the saved files) and `none` on success.
`notifyWisphub` never returns a falsy value, so the `!wisphubResult` arm of
the line-342 condition is vacuous; a `null` status (skipped config, or a
rejection without response status) falls into the persist branch. -/
def createRequest (files : List String) (wis : WisphubCall) (st : CreateState)
    (newId : Nat) : CreateState × Option Int :=
  let diskAfterSave := st.disk ++ files
  let wisphubResult := notifyWisphub wis
  match wisphubResult.status with
  | some s =>
    if s ≥ 400 then
      (⟨diskAfterSave.filter (fun f => ¬ files.contains f), st.db⟩, some s)
    else (⟨diskAfterSave, st.db ++ [newId]⟩, none)
  | none => (⟨diskAfterSave, st.db ++ [newId]⟩, none)

/-! ### Spec-side option resolution with a correction table

The spec describes a static correction table consulted before any fuzzy
matching; no such table exists anywhere in the source (`findOptionId`, lines
2049-2152, and the zone/router/AP resolution in `submitGeonetActivation`,
lines 2456-2495, go straight to the heuristic).  The following two
definitions follow the spec's words so that the described behaviour can be
compared with the code's. -/

/-- Modelled from the spec (§4.6, §8, §9): the static correction table of
known exact renamings between the upstream naming convention and the
portal's, e.g. zone hint `Villa Maule - Z201` ↦ portal label
`Villa Maule - Zona 201 - Vlan 201`; keys and values normalized. -/
def zoneCorrectionTable : List (String × String) :=
  [("villa maule - z201", "villa maule - zona 201 - vlan 201")]

/-- Modelled from the spec (§4.6): `resolveOption` applies the correction
table first; when the corrected target matches an option's text exactly
(case-insensitively, i.e. after normalization), that option wins before any
fuzzy matching; only otherwise does the heuristic resolver run. -/
def resolveOptionSpec (options : List OptionEl) (targetName : String) : String :=
  let corrected := (zoneCorrectionTable.lookup (normalizeText targetName)).getD
    (normalizeText targetName)
  match options.find? (fun o => normalizeText o.text = corrected ∧ o.value ≠ "") with
  | some o => o.value
  | none => findOptionId options targetName

/-! ## Theorems -/

/-! ### Shared helper lemmas -/

theorem subAt_self (l : List Char) : subAt l l = true := by
  induction l with
  | nil => rfl
  | cons c cs ih => simp [subAt, ih]

theorem jsIncludes_self (s : String) (h : s ≠ "") : jsIncludes s s = true := by
  unfold jsIncludes hasSub
  cases hd : s.data with
  | nil => exact absurd (by cases s; simp_all) h
  | cons c cs => simp [← hd, subAt_self]

theorem tokenFilter_toFinset (t c : List String) :
    (t.dedup.filter (fun x => c.dedup.contains x)).toFinset = t.toFinset ∩ c.toFinset := by
  ext x
  simp [List.mem_filter, List.mem_dedup, List.contains]

/-! ### C8 — similarity scorer -/

/-- C8: `calculateSimilarityScore` returns 0 when either string is empty;
for non-empty strings it returns 1 when the candidate contains the target as
a substring (in particular `score(x, x) = 1` for non-empty `x`); and
otherwise it is exactly `|intersection| / |union|` of the whitespace-split
token sets of the two strings. -/
theorem C8_similarity_score (target candidate : String) :
    (calculateSimilarityScore "" candidate = 0) ∧
    (calculateSimilarityScore target "" = 0) ∧
    (target ≠ "" → candidate ≠ "" → jsIncludes candidate target = true →
      calculateSimilarityScore target candidate = 1) ∧
    (target ≠ "" → calculateSimilarityScore target target = 1) ∧
    (target ≠ "" → candidate ≠ "" → jsIncludes candidate target = false →
      calculateSimilarityScore target candidate =
        (((splitTokens target).toFinset ∩ (splitTokens candidate).toFinset).card : ℚ) /
        (((splitTokens target).toFinset ∪ (splitTokens candidate).toFinset).card : ℚ)) := by
  refine ⟨by simp [calculateSimilarityScore], by simp [calculateSimilarityScore], ?_, ?_, ?_⟩
  · intro h1 h2 h3
    unfold calculateSimilarityScore
    rw [if_neg (by simp [h1, h2]), if_pos h3]
  · intro h1
    unfold calculateSimilarityScore
    rw [if_neg (by simp [h1]), if_pos (jsIncludes_self target h1)]
  · intro h1 h2 h3
    unfold calculateSimilarityScore
    rw [if_neg (by simp [h1, h2]), if_neg (by simp [h3])]
    by_cases ht : (splitTokens target).dedup = []
    · have h0 : splitTokens target = [] := by simpa using ht
      simp [ht, h0]
    · by_cases hc : (splitTokens candidate).dedup = []
      · have h0 : splitTokens candidate = [] := by simpa using hc
        simp [ht, hc, h0]
      · rw [if_neg (by simp [ht, hc])]
        have hnd : ((splitTokens target).dedup.filter
            (fun t => (splitTokens candidate).dedup.contains t)).Nodup :=
          (List.nodup_dedup _).filter _
        have hinter : ((splitTokens target).dedup.filter
              (fun t => (splitTokens candidate).dedup.contains t)).length =
            ((splitTokens target).toFinset ∩ (splitTokens candidate).toFinset).card := by
          rw [← List.toFinset_card_of_nodup hnd, tokenFilter_toFinset]
        have hunion : ((splitTokens target) ++ (splitTokens candidate)).dedup.length =
            (((splitTokens target).toFinset ∪ (splitTokens candidate).toFinset)).card := by
          rw [← List.card_toFinset, List.toFinset_append]
        have hne : (((splitTokens target) ++ (splitTokens candidate)).dedup.length) ≠ 0 := by
          intro h
          rw [List.length_eq_zero, List.dedup_eq_nil, List.append_eq_nil] at h
          exact ht (by simp [List.dedup_eq_nil, h.1])
        rw [if_neg hne, hinter, hunion]

/-- Witness for C8 at the spec's own example: containment gives score 1, and
the empty target gives 0. -/
theorem C8_witness :
    calculateSimilarityScore "juan perez" "sr juan perez lopez" = 1 ∧
    calculateSimilarityScore "" "sr juan perez lopez" = 0 := by
  constructor
  · exact (C8_similarity_score "juan perez" "sr juan perez lopez").2.2.1
      (by decide) (by decide) (by decide)
  · exact (C8_similarity_score "juan perez" "sr juan perez lopez").1

/-! ### C2 — form snapshot extraction -/

theorem setField_lookup_self (l : List (String × String)) (k v : String) :
    (setField l k v).lookup k = some v := by
  induction l with
  | nil => simp [setField]
  | cons p rest ih =>
    obtain ⟨k', v'⟩ := p
    by_cases h : k' = k
    · subst h
      simp [setField]
    · have hb : (k == k') = false := by simp [Ne.symm h]
      simp only [setField, if_neg h, List.lookup_cons, hb]
      exact ih

theorem setField_lookup_ne (l : List (String × String)) (k v f : String) (h : f ≠ k) :
    (setField l k v).lookup f = l.lookup f := by
  induction l with
  | nil =>
    have hb : (f == k) = false := by simp [h]
    simp [setField, List.lookup_cons, hb]
  | cons p rest ih =>
    obtain ⟨k', v'⟩ := p
    by_cases hk : k' = k
    · subst hk
      have hb : (f == k') = false := by simp [h]
      simp only [setField, if_pos rfl, List.lookup_cons, hb]
      simp [List.lookup_cons, hb]
    · by_cases hf : f = k'
      · subst hf
        have hb : (f == f) = true := by simp
        simp only [setField, if_neg hk, List.lookup_cons, hb]
      · have hb : (f == k') = false := by simp [hf]
        simp only [setField, if_neg hk, List.lookup_cons, hb]
        exact ih

/-- C2 counterexample: a text input whose `value` attribute is the empty
string is NOT represented in the snapshot — `extractFormFields` omits the
field entirely (line 2242 keeps a field only when its trimmed value is
non-empty) instead of mapping it to the empty string as the claim states. -/
theorem C2_counterexample :
    extractFormFields ⟨[⟨some "textinput", "text", false, some ""⟩], [], []⟩ = [] := by
  decide

theorem singleton_lookup_or (a b : String) (fields : List (String × String)) (n : String) :
    (setField fields a b).lookup n = ([(a, b)].lookup n).or (fields.lookup n) := by
  by_cases h : n = a
  · subst h
    rw [setField_lookup_self]
    rw [List.lookup_cons]
    simp
  · rw [setField_lookup_ne _ _ _ _ h]
    have hb : (n == a) = false := by simp [h]
    rw [List.lookup_cons]
    simp [hb]

theorem foldl_setField_lookup {α : Type} (entry : α → Option (String × String)) :
    ∀ (l : List α) (fields : List (String × String)) (n : String),
      ((l.foldl (fun fs el =>
          match entry el with
          | none => fs
          | some p => setField fs p.1 p.2) fields).lookup n) =
        ((l.filterMap entry).reverse.lookup n).or (fields.lookup n) := by
  intro l
  induction l with
  | nil =>
    intro fields n
    simp [Option.none_or]
  | cons el rest ih =>
    intro fields n
    rw [List.foldl_cons]
    cases he : entry el with
    | none =>
      simp only [he, List.filterMap_cons]
      exact ih fields n
    | some p =>
      obtain ⟨a, b⟩ := p
      simp only [he, List.filterMap_cons]
      rw [ih, List.reverse_cons, List.lookup_append, Option.or_assoc, singleton_lookup_or]

theorem inputStep_eq (fields : List (String × String)) (el : InputEl) :
    (match el.name with
     | none => fields
     | some name =>
       let ty := jsToLowerStr el.ty
       if ty = "submit" ∨ ty = "button" ∨ ty = "file" then fields
       else if (ty = "checkbox" ∨ ty = "radio") ∧ ¬ el.checked then fields
       else
         let value := jsTrim (el.value.getD "")
         if value ≠ "" then setField fields name value else fields) =
    (match inputFieldRule el with
     | none => fields
     | some p => setField fields p.1 p.2) := by
  cases hn : el.name with
  | none => simp [inputFieldRule, hn]
  | some name =>
    simp only [inputFieldRule, hn]
    split
    · rfl
    · split
      · rfl
      · split
        · rfl
        · rfl

theorem textareaStep_eq (fields : List (String × String)) (el : TextareaEl) :
    (match el.name with
     | none => fields
     | some name =>
       let value := jsTrim el.text
       if value ≠ "" then setField fields name value else fields) =
    (match textareaFieldRule el with
     | none => fields
     | some p => setField fields p.1 p.2) := by
  cases hn : el.name with
  | none => simp [textareaFieldRule, hn]
  | some name =>
    simp only [textareaFieldRule, hn]
    split
    · rfl
    · rfl

theorem selectStep_eq (fields : List (String × String)) (el : SelectEl) :
    (if el.nameAttr = "" then fields
     else
       let value := extractSelectValue el.opts
       if value ≠ "" then setField fields el.nameAttr value else fields) =
    (match selectFieldRule el with
     | none => fields
     | some p => setField fields p.1 p.2) := by
  simp only [selectFieldRule]
  split
  · rfl
  · split
    · rfl
    · rfl

theorem extractFormFields_lookup (form : FormEl) (n : String) :
    (extractFormFields form).lookup n = (formFieldRules form).reverse.lookup n := by
  have hdef : extractFormFields form =
      List.foldl
        (fun fields el =>
          if el.nameAttr = "" then fields
          else
            let value := extractSelectValue el.opts
            if value ≠ "" then setField fields el.nameAttr value else fields)
        (List.foldl
          (fun fields el =>
            match el.name with
            | none => fields
            | some name =>
              let value := jsTrim el.text
              if value ≠ "" then setField fields name value else fields)
          (List.foldl
            (fun fields el =>
              match el.name with
              | none => fields
              | some name =>
                let ty := jsToLowerStr el.ty
                if ty = "submit" ∨ ty = "button" ∨ ty = "file" then fields
                else if (ty = "checkbox" ∨ ty = "radio") ∧ ¬ el.checked then fields
                else
                  let value := jsTrim (el.value.getD "")
                  if value ≠ "" then setField fields name value else fields)
            [] form.inputs)
          form.textareas)
        form.selects := rfl
  rw [hdef]
  unfold formFieldRules
  rw [List.foldl_ext _ (fun fs el => match inputFieldRule el with
      | none => fs
      | some p => setField fs p.1 p.2) [] (fun acc el _ => inputStep_eq acc el)]
  rw [List.foldl_ext _ (fun fs el => match textareaFieldRule el with
      | none => fs
      | some p => setField fs p.1 p.2) _ (fun acc el _ => textareaStep_eq acc el)]
  rw [List.foldl_ext _ (fun fs el => match selectFieldRule el with
      | none => fs
      | some p => setField fs p.1 p.2) _ (fun acc el _ => selectStep_eq acc el)]
  rw [foldl_setField_lookup, foldl_setField_lookup, foldl_setField_lookup]
  rw [List.lookup_nil, Option.or_none]
  rw [List.reverse_append, List.reverse_append, List.lookup_append, List.lookup_append]

theorem inputFieldRule_snd_ne {el : InputEl} {p : String × String}
    (h : inputFieldRule el = some p) : p.2 ≠ "" := by
  cases hn : el.name with
  | none => simp [inputFieldRule, hn] at h
  | some name =>
    simp only [inputFieldRule, hn] at h
    split at h
    · cases h
    · split at h
      · cases h
      · split at h
        · rename_i hv
          cases h
          exact hv
        · cases h

theorem textareaFieldRule_snd_ne {el : TextareaEl} {p : String × String}
    (h : textareaFieldRule el = some p) : p.2 ≠ "" := by
  cases hn : el.name with
  | none => simp [textareaFieldRule, hn] at h
  | some name =>
    simp only [textareaFieldRule, hn] at h
    split at h
    · rename_i hv
      cases h
      exact hv
    · cases h

theorem selectFieldRule_snd_ne {el : SelectEl} {p : String × String}
    (h : selectFieldRule el = some p) : p.2 ≠ "" := by
  simp only [selectFieldRule] at h
  split at h
  · cases h
  · split at h
    · rename_i hv
      cases h
      exact hv
    · cases h

theorem lookup_mem : ∀ {l : List (String × String)} {n v : String},
    l.lookup n = some v → (n, v) ∈ l := by
  intro l
  induction l with
  | nil => intro n v h; cases h
  | cons p rest ih =>
    intro n v h
    obtain ⟨k, b⟩ := p
    rw [List.lookup_cons] at h
    cases hk : (n == k) with
    | true =>
      rw [hk] at h
      cases h
      have hnk : n = k := by simpa using hk
      simp [hnk]
    | false =>
      rw [hk] at h
      exact List.mem_cons_of_mem _ (ih h)

theorem formFieldRules_lookup_ne {form : FormEl} {n v : String}
    (h : (formFieldRules form).reverse.lookup n = some v) : v ≠ "" := by
  have hmem : (n, v) ∈ formFieldRules form := List.mem_reverse.mp (lookup_mem h)
  unfold formFieldRules at hmem
  rcases List.mem_append.mp hmem with h12 | h3
  · rcases List.mem_append.mp h12 with h1 | h2
    · obtain ⟨el, _, he⟩ := List.mem_filterMap.mp h1
      exact inputFieldRule_snd_ne he
    · obtain ⟨el, _, he⟩ := List.mem_filterMap.mp h2
      exact textareaFieldRule_snd_ne he
  · obtain ⟨el, _, he⟩ := List.mem_filterMap.mp h3
    exact selectFieldRule_snd_ne he

/-- C2 (amended): for EVERY parsed form and field name, the snapshot built
by `extractFormFields` looks up to the last matching entry of the
per-element extraction rules — `inputFieldRule` (named non-submit/button/file
inputs with a non-empty trimmed value, checkboxes and radios only when
checked), `textareaFieldRule` (named textareas with non-empty trimmed text)
and `selectFieldRule` (named selects whose extracted value — the selected
option, else the first non-placeholder option with a non-empty value — is
non-empty); every snapshot value is non-empty after trimming; and the
round-trip form of the original claim yields exactly
`{checkedbox: "on", textinput: "value", select: "sv"}` with the unchecked
checkbox, empty text input, nameless input, submit/button/file controls and
empty textarea all absent. -/
theorem C2_snapshot_rules (form : FormEl) (n : String) :
    (extractFormFields form).lookup n = (formFieldRules form).reverse.lookup n ∧
    (∀ v, (extractFormFields form).lookup n = some v → v ≠ "") ∧
    extractFormFields ⟨[⟨some "checkedbox", "checkbox", true, some "on"⟩,
        ⟨some "uncheckedbox", "checkbox", false, some "on"⟩,
        ⟨some "textinput", "text", false, some "value"⟩,
        ⟨some "emptytext", "text", false, some ""⟩,
        ⟨none, "text", false, some "nameless"⟩,
        ⟨some "send", "submit", false, some "Send"⟩,
        ⟨some "pick", "button", false, some "Pick"⟩,
        ⟨some "upload", "file", false, some "x.jpg"⟩],
        [⟨some "emptyarea", "  "⟩],
        [⟨"select", "", [⟨"", "---------", "", "", false⟩,
          ⟨"sv", "Option A", "", "", true⟩]⟩]⟩ =
      [("checkedbox", "on"), ("textinput", "value"), ("select", "sv")] := by
  refine ⟨extractFormFields_lookup form n, ?_, by decide⟩
  intro v hv
  rw [extractFormFields_lookup] at hv
  exact formFieldRules_lookup_ne hv

/-- Witness for C2 (amended) at a form exercising a checked radio, an
unchecked radio, a whitespace-padded textarea, and a select with no selected
option whose first option is the dash placeholder, so the first-non-placeholder
fallback picks `sv2`. -/
theorem C2_witness :
    (extractFormFields ⟨[⟨some "radio1", "radio", true, some "r1"⟩,
        ⟨some "radio2", "radio", false, some "r2"⟩],
        [⟨some "area", "  hola  "⟩],
        [⟨"sel", "", [⟨"", "---------", "", "", false⟩,
          ⟨"sv2", "Option B", "", "", false⟩]⟩]⟩).lookup "radio1" = some "r1" ∧
    (extractFormFields ⟨[⟨some "radio1", "radio", true, some "r1"⟩,
        ⟨some "radio2", "radio", false, some "r2"⟩],
        [⟨some "area", "  hola  "⟩],
        [⟨"sel", "", [⟨"", "---------", "", "", false⟩,
          ⟨"sv2", "Option B", "", "", false⟩]⟩]⟩).lookup "radio2" = none ∧
    (extractFormFields ⟨[⟨some "radio1", "radio", true, some "r1"⟩,
        ⟨some "radio2", "radio", false, some "r2"⟩],
        [⟨some "area", "  hola  "⟩],
        [⟨"sel", "", [⟨"", "---------", "", "", false⟩,
          ⟨"sv2", "Option B", "", "", false⟩]⟩]⟩).lookup "area" = some "hola" ∧
    (extractFormFields ⟨[⟨some "radio1", "radio", true, some "r1"⟩,
        ⟨some "radio2", "radio", false, some "r2"⟩],
        [⟨some "area", "  hola  "⟩],
        [⟨"sel", "", [⟨"", "---------", "", "", false⟩,
          ⟨"sv2", "Option B", "", "", false⟩]⟩]⟩).lookup "sel" = some "sv2" ∧
    "sv2" ≠ "" :=
  ⟨((C2_snapshot_rules ⟨[⟨some "radio1", "radio", true, some "r1"⟩,
        ⟨some "radio2", "radio", false, some "r2"⟩],
        [⟨some "area", "  hola  "⟩],
        [⟨"sel", "", [⟨"", "---------", "", "", false⟩,
          ⟨"sv2", "Option B", "", "", false⟩]⟩]⟩ "radio1").1).trans (by decide),
   ((C2_snapshot_rules ⟨[⟨some "radio1", "radio", true, some "r1"⟩,
        ⟨some "radio2", "radio", false, some "r2"⟩],
        [⟨some "area", "  hola  "⟩],
        [⟨"sel", "", [⟨"", "---------", "", "", false⟩,
          ⟨"sv2", "Option B", "", "", false⟩]⟩]⟩ "radio2").1).trans (by decide),
   ((C2_snapshot_rules ⟨[⟨some "radio1", "radio", true, some "r1"⟩,
        ⟨some "radio2", "radio", false, some "r2"⟩],
        [⟨some "area", "  hola  "⟩],
        [⟨"sel", "", [⟨"", "---------", "", "", false⟩,
          ⟨"sv2", "Option B", "", "", false⟩]⟩]⟩ "area").1).trans (by decide),
   ((C2_snapshot_rules ⟨[⟨some "radio1", "radio", true, some "r1"⟩,
        ⟨some "radio2", "radio", false, some "r2"⟩],
        [⟨some "area", "  hola  "⟩],
        [⟨"sel", "", [⟨"", "---------", "", "", false⟩,
          ⟨"sv2", "Option B", "", "", false⟩]⟩]⟩ "sel").1).trans (by decide),
   (C2_snapshot_rules ⟨[⟨some "radio1", "radio", true, some "r1"⟩,
        ⟨some "radio2", "radio", false, some "r2"⟩],
        [⟨some "area", "  hola  "⟩],
        [⟨"sel", "", [⟨"", "---------", "", "", false⟩,
          ⟨"sv2", "Option B", "", "", false⟩]⟩]⟩ "sel").2.1 "sv2"
     (((C2_snapshot_rules ⟨[⟨some "radio1", "radio", true, some "r1"⟩,
        ⟨some "radio2", "radio", false, some "r2"⟩],
        [⟨some "area", "  hola  "⟩],
        [⟨"sel", "", [⟨"", "---------", "", "", false⟩,
          ⟨"sv2", "Option B", "", "", false⟩]⟩]⟩ "sel").1).trans (by decide))⟩

/-! ### C9 — createRequest persistence -/

/-- C9 counterexample: when the Wisphub notification call throws without an
attached response status (`notifyWisphub` catches it and returns
`{status: null}`, lines 2002-2009) and the config is present (`skipped` is
false), `createRequest` persists the record and keeps the uploaded file —
contradicting the claim that any exception leaves the store unchanged. -/
theorem C9_counterexample :
    createRequest ["idFront.jpg"] .threwNoResponse ⟨[], []⟩ 7 =
      (⟨["idFront.jpg"], [7]⟩, none) ∧
    (notifyWisphub .threwNoResponse).skipped = false := by
  decide

/-- C9 (amended): `createRequest` persists the record exactly when the
Wisphub notification's result status is `null` or below 400 — `null` arising
both from a skipped (missing-config) notification and from a notification
exception without a response status; when the status is ≥ 400 the error is
rethrown with that status, every temporarily saved upload file is deleted,
and the local store is unchanged. -/
theorem C9_persist_condition (files : List String) (wis : WisphubCall)
    (st : CreateState) (newId : Nat) :
    ((createRequest files wis st newId).2 = none ↔
      ¬ ∃ s, (notifyWisphub wis).status = some s ∧ s ≥ 400) ∧
    ((createRequest files wis st newId).2 = none →
      (createRequest files wis st newId).1 = ⟨st.disk ++ files, st.db ++ [newId]⟩) ∧
    (∀ s, (createRequest files wis st newId).2 = some s →
      (notifyWisphub wis).status = some s ∧ s ≥ 400 ∧
      (createRequest files wis st newId).1.db = st.db ∧
      ∀ f ∈ files, f ∉ (createRequest files wis st newId).1.disk) := by
  cases wis with
  | configMissing => simp [createRequest, notifyWisphub]
  | threwNoResponse => simp [createRequest, notifyWisphub]
  | responded s =>
    by_cases hs : s ≥ 400
    · refine ⟨by simp [createRequest, notifyWisphub, hs], ?_, ?_⟩
      · simp [createRequest, notifyWisphub, hs]
      · intro s' hs'
        obtain rfl : s = s' := by
          simpa [createRequest, notifyWisphub, hs] using hs'
        refine ⟨rfl, hs, ?_, ?_⟩
        · simp [createRequest, notifyWisphub, hs]
        · intro f hf
          simp [createRequest, notifyWisphub, hs, List.mem_filter, hf]
    · simp only [createRequest, notifyWisphub, if_neg hs]
      refine ⟨by simp [hs], by simp, ?_⟩
      intro s' hs'
      simp at hs'
  | threwWithStatus s =>
    by_cases hs : s ≥ 400
    · refine ⟨by simp [createRequest, notifyWisphub, hs], ?_, ?_⟩
      · simp [createRequest, notifyWisphub, hs]
      · intro s' hs'
        obtain rfl : s = s' := by
          simpa [createRequest, notifyWisphub, hs] using hs'
        refine ⟨rfl, hs, ?_, ?_⟩
        · simp [createRequest, notifyWisphub, hs]
        · intro f hf
          simp [createRequest, notifyWisphub, hs, List.mem_filter, hf]
    · simp only [createRequest, notifyWisphub, if_neg hs]
      refine ⟨by simp [hs], by simp, ?_⟩
      intro s' hs'
      simp at hs'

/-- Witness for C9 (amended) at a concrete error status: a 500 reply from
Wisphub leaves the store unchanged and deletes the staged upload. -/
theorem C9_witness :
    (notifyWisphub (.responded 500)).status = some 500 ∧ (500 : Int) ≥ 400 ∧
    (createRequest ["a.jpg"] (.responded 500) ⟨[], []⟩ 3).1.db = [] ∧
    ∀ f ∈ ["a.jpg"], f ∉ (createRequest ["a.jpg"] (.responded 500) ⟨[], []⟩ 3).1.disk :=
  (C9_persist_condition ["a.jpg"] (.responded 500) ⟨[], []⟩ 3).2.2 500 (by decide)

/-! ### C3/C4 — retry executor -/

theorem withRetryAux_succ (call : Nat → CallOutcome) (attempts : Nat) (base : Int)
    (attempt rem : Nat) :
    withRetryAux call attempts base attempt (rem + 1) =
      (match attemptStep (call attempt) with
       | .ok r => (.ok r, [])
       | .error e =>
         if ¬ isRetryableStatus (e.response.bind (fun r => r.status)) ∨ attempt = attempts
         then (.error e, [])
         else
           ((withRetryAux call attempts base (attempt + 1) rem).1,
             retryWaitMs base attempt e ::
               (withRetryAux call attempts base (attempt + 1) rem).2)) := by
  rfl

/-- C3 counterexample: a thrown network error — a rejection with no attached
response (`err?.response?.status` is undefined) — is NOT retried: `withRetry`
makes a single attempt, performs no wait, and propagates the error, although
the claim classifies thrown network errors as retryable. -/
theorem C3_counterexample :
    withRetry (fun _ => .thrown 0 none) 3 1000 = (.error (.fromCall 0 none), []) := rfl

/-- C3 (amended): an attempt is retried exactly when its error carries an
attached response whose status is 429, 502, 503 or 504 — whether the call
threw that error or returned the status as a normal result
(`attemptStep` converts the latter into the former); every other outcome,
including thrown errors without a response (network errors), is terminal and
is returned or raised after the first attempt with no retry. -/
theorem C3_retry_classification (call : Nat → CallOutcome) (attempts : Nat) (base : Int)
    (h2 : 2 ≤ attempts) :
    (∀ r, attemptStep (call 1) = .ok r →
      isRetryableStatus r.status = false ∧ withRetry call attempts base = (.ok r, [])) ∧
    (∀ e, attemptStep (call 1) = .error e →
      isRetryableStatus (e.response.bind (fun r => r.status)) = false →
      withRetry call attempts base = (.error e, [])) ∧
    (∀ e, attemptStep (call 1) = .error e →
      isRetryableStatus (e.response.bind (fun r => r.status)) = true →
      (withRetry call attempts base).2 ≠ []) := by
  obtain ⟨n, rfl⟩ : ∃ n, attempts = n + 2 := ⟨attempts - 2, by omega⟩
  have hu : withRetry call (n + 2) base = withRetryAux call (n + 2) base 1 (n + 1 + 1) := rfl
  refine ⟨?_, ?_, ?_⟩
  · intro r hr
    have hstat : isRetryableStatus r.status = false := by
      cases hc : call 1 with
      | ok r' =>
        rw [hc] at hr
        simp only [attemptStep] at hr
        by_cases hret : isRetryableStatus r'.status = true
        · rw [if_pos hret] at hr
          cases hr
        · rw [if_neg hret] at hr
          obtain rfl : r' = r := by injection hr
          simpa using hret
      | thrown t o =>
        rw [hc] at hr
        simp [attemptStep] at hr
    refine ⟨hstat, ?_⟩
    rw [hu, withRetryAux_succ, hr]
  · intro e he hstat
    rw [hu, withRetryAux_succ, he]
    simp [hstat]
  · intro e he hstat
    rw [hu, withRetryAux_succ, he]
    simp [hstat]

/-- Witness for C3 (amended): a 502 returned as a normal result value is
retried (a wait is scheduled), while a clean 200 settles immediately. -/
theorem C3_witness :
    (withRetry (fun _ => .ok (respWithStatus 502)) 3 1000).2 ≠ [] ∧
    withRetry (fun _ => .ok (respWithStatus 200)) 3 1000 = (.ok (respWithStatus 200), []) := by
  constructor
  · exact (C3_retry_classification (fun _ => .ok (respWithStatus 502)) 3 1000 (by omega)).2.2
      (.retryableStatus (respWithStatus 502)) rfl rfl
  · exact ((C3_retry_classification (fun _ => .ok (respWithStatus 200)) 3 1000 (by omega)).1
      (respWithStatus 200) rfl).2

theorem withRetryAux_const (o : CallOutcome) (e : JsError) (n : Nat) (base : Int)
    (he : attemptStep o = .error e)
    (hr : isRetryableStatus (e.response.bind (fun r => r.status)) = true) :
    ∀ rem attempt, 1 ≤ attempt → 1 ≤ rem → attempt + rem = n + 1 →
      withRetryAux (fun _ => o) n base attempt rem =
        (.error e, (List.range (rem - 1)).map (fun k => retryWaitMs base (attempt + k) e)) := by
  intro rem
  induction rem with
  | zero => intro attempt _ h0 _; omega
  | succ r ih =>
    intro attempt h1 _ hsum
    rw [withRetryAux_succ, he]
    dsimp only
    by_cases hlast : attempt = n
    · have hr0 : r = 0 := by omega
      subst hr0
      simp [hlast, hr]
    · rw [if_neg (by simp [hr, hlast])]
      obtain ⟨r2, rfl⟩ : ∃ r2, r = r2 + 1 := ⟨r - 1, by omega⟩
      have hmap : (List.range (r2 + 1)).map (fun k => retryWaitMs base (attempt + k) e) =
          retryWaitMs base attempt e ::
            (List.range r2).map (fun k => retryWaitMs base (attempt + 1 + k) e) := by
        rw [List.range_succ_eq_map, List.map_cons, List.map_map]
        simp only [Nat.add_zero]
        congr 1
        apply List.map_congr_left
        intro a _
        simp only [Function.comp_apply]
        congr 1
        omega
      rw [ih (attempt + 1) (by omega) (by omega) (by omega)]
      simp only [Nat.add_sub_cancel]
      rw [hmap]

/-- C4: when every attempt fails with the same retryable error, the wait
before the retry following attempt `k + 1` is `max(15000, Retry-After × 1000)`
for status 429 and `max(baseDelay × 2^k, Retry-After × 1000)` for the other
retryable statuses; the attempt count is bounded (`attempts - 1` waits), the
last error is re-raised after the final attempt, and the configured attempt
counts are 3 by default and 6 (base delay 2000 ms) for the login calls. -/
theorem C4_retry_backoff (o : CallOutcome) (e : JsError) (n : Nat) (base : Int)
    (he : attemptStep o = .error e)
    (hr : isRetryableStatus (e.response.bind (fun r => r.status)) = true)
    (hn : 1 ≤ n) :
    withRetry (fun _ => o) n base =
      (.error e, (List.range (n - 1)).map (fun k =>
        if e.response.bind (fun r => r.status) = some 429 then
          max 15000 (parseRetryAfterMs (e.response.bind (fun r => r.retryAfterSecs)))
        else
          max (base * 2 ^ k) (parseRetryAfterMs (e.response.bind (fun r => r.retryAfterSecs))))) ∧
    defaultRetryAttempts = 3 ∧ geonetLoginRetryAttempts = 6 ∧
    geonetLoginRetryBaseDelayMs = 2000 := by
  refine ⟨?_, rfl, rfl, rfl⟩
  rw [withRetry, withRetryAux_const o e n base he hr n 1 (by omega) hn (by omega)]
  congr 1
  apply List.map_congr_left
  intro k _
  simp only [retryWaitMs]
  have hk : 1 + k - 1 = k := by omega
  rw [hk]

/-- Witness for C4 at the spec's example: a 429 with `Retry-After: 5` waits
the 15000 ms floor before each retry, and the failure is re-raised after the
third attempt. -/
theorem C4_witness :
    withRetry (fun _ => .ok ⟨some 429, some 5, "", none⟩) 3 1000 =
      (.error (.retryableStatus ⟨some 429, some 5, "", none⟩), [15000, 15000]) ∧
    defaultRetryAttempts = 3 ∧ geonetLoginRetryAttempts = 6 := by
  have h := C4_retry_backoff (.ok ⟨some 429, some 5, "", none⟩)
    (.retryableStatus ⟨some 429, some 5, "", none⟩) 3 1000 (by rfl) (by rfl) (by omega)
  exact ⟨h.1.trans (by rfl), h.2.1, h.2.2.1⟩

/-! ### C5 — session expiry and single relogin -/

/-- C5: a response that is a redirect (301/302/303/307/308) to the login
path, or whose body contains the login-URL substring together with a
login/password field marker, is classified as session expiry,
`throwIfGeonetAuthRequired` turns it into an error flagged
`isGeonetAuthError`, and `withGeonetRelogin` re-runs the step exactly once
(with a forced fresh client) on such an error: a second failure — auth or
otherwise — propagates as-is, and non-auth errors are never retried. -/
theorem C5_session_expiry_relogin (r : HttpResp) (body : String) {α : Type}
    (fn : Nat → Except GeoErr α) (e : GeoErr) (label : String) :
    ((r.status = some 301 ∨ r.status = some 302 ∨ r.status = some 303 ∨
        r.status = some 307 ∨ r.status = some 308) →
      jsIncludes r.location "/accounts/login" = true →
      isGeonetLoginResponse r = true) ∧
    (r.bodyHtml = some body →
      jsIncludes (jsToLowerStr body) "/accounts/login" = true →
      (jsIncludes (jsToLowerStr body) "name=\"login\"" = true ∨
        jsIncludes (jsToLowerStr body) "name=\"password\"" = true) →
      isGeonetLoginResponse r = true) ∧
    (isGeonetLoginResponse r = true →
      throwIfGeonetAuthRequired r label =
        .error ⟨some 401, true, label ++ ": sesión Geonet expirada / requiere login"⟩) ∧
    (fn 1 = .error e → e.isGeonetAuthError = true → withGeonetRelogin fn = fn 2) ∧
    (∀ e', fn 1 = .error e → e.isGeonetAuthError = true → fn 2 = .error e' →
      withGeonetRelogin fn = .error e') ∧
    (fn 1 = .error e → e.isGeonetAuthError = false → withGeonetRelogin fn = .error e) := by
  refine ⟨?_, ?_, ?_, ?_, ?_, ?_⟩
  · intro hst hloc
    unfold isGeonetLoginResponse
    rw [if_pos (by exact ⟨hst, hloc⟩)]
  · intro hb hurl hmark
    unfold isGeonetLoginResponse
    by_cases hred : (r.status = some 301 ∨ r.status = some 302 ∨ r.status = some 303 ∨
        r.status = some 307 ∨ r.status = some 308) ∧ jsIncludes r.location "/accounts/login" = true
    · rw [if_pos hred]
    · rw [if_neg hred, hb]
      simp only []
      rw [if_pos (by exact ⟨hurl, hmark⟩)]
  · intro h
    unfold throwIfGeonetAuthRequired
    rw [if_pos h]
  · intro h1 hauth
    unfold withGeonetRelogin
    rw [h1]
    simp [hauth]
  · intro e' h1 hauth h2
    unfold withGeonetRelogin
    rw [h1]
    simp [hauth, h2]
  · intro h1 hauth
    unfold withGeonetRelogin
    rw [h1]
    simp [hauth]

/-- Witness for C5: a concrete redirect-to-login response is classified as
expiry, and a step failing with an auth error on both attempts propagates the
second attempt's error. -/
theorem C5_witness :
    isGeonetLoginResponse ⟨some 302, none, "/accounts/login/?next=/panel/", none⟩ = true ∧
    withGeonetRelogin (fun n => (.error ⟨some 401, true, toString n⟩ : Except GeoErr Unit)) =
      .error ⟨some 401, true, "2"⟩ := by
  have h := C5_session_expiry_relogin ⟨some 302, none, "/accounts/login/?next=/panel/", none⟩ ""
    (fun n => (.error ⟨some 401, true, toString n⟩ : Except GeoErr Unit))
    ⟨some 401, true, "1"⟩ "x"
  exact ⟨h.1 (by simp) (by decide), h.2.2.2.2.1 ⟨some 401, true, "2"⟩ rfl rfl rfl⟩

/-! ### C10 — empty client-name tokens accept every row -/

/-- C10: when the client name normalizes to no tokens (empty or
whitespace-only), the row filter of the pending-activations listing accepts
every row, so the first anchor matching the activation-link selector is
chosen regardless of which client its row belongs to. -/
theorem C10_empty_tokens_first_row (anchors : List Anchor) (clientName : String)
    (h : splitTokens (normalizeText clientName) = []) :
    selectActivationLink anchors clientName =
      (match anchors.find? (fun a => jsIncludes a.href "/preinstalacion/activar/") with
       | none => ""
       | some a =>
         if jsStartsWith a.href "http" then a.href
         else "https://admin.geonet.cl" ++ a.href) := by
  simp only [selectActivationLink, h]
  simp

/-- Witness for C10: with a whitespace-only client name, the first listed
activation row (client "Pedro Soto") is selected even though the second row
belongs to a different client. -/
theorem C10_witness :
    splitTokens (normalizeText "   ") = [] ∧
    selectActivationLink [⟨"/preinstalacion/activar/x/9/", "Pedro Soto"⟩,
        ⟨"/preinstalacion/activar/y/10/", "Ana Torres"⟩] "   " =
      "https://admin.geonet.cl/preinstalacion/activar/x/9/" := by
  refine ⟨by decide, ?_⟩
  rw [C10_empty_tokens_first_row _ _ (by decide)]
  decide

/-! ### C6 — no correction table; pure heuristic resolution -/

theorem findOptionStep_nonEmail (target : String) (st : BestOption) (o : OptionEl) :
    findOptionStep false [] target st o =
      (if o.value = "" then st
       else if optionScore target o > st.score then
         ⟨o.value, normalizeText o.text, optionScore target o⟩
       else st) := by
  unfold findOptionStep
  by_cases hv : o.value = ""
  · rw [if_pos hv, if_pos hv]
  · rw [if_neg hv, if_neg hv]
    simp only [Bool.false_eq_true, if_false]

theorem findOptionStep_keeps (target : String) (l : List OptionEl) (st : BestOption)
    (h : ∀ o ∈ l, optionScore target o ≤ st.score) :
    l.foldl (findOptionStep false [] target) st = st := by
  induction l generalizing st with
  | nil => rfl
  | cons o rest ih =>
    rw [List.foldl_cons, findOptionStep_nonEmail]
    have ho := h o (by simp)
    have hstep : (if o.value = "" then st
        else if optionScore target o > st.score then
          (⟨o.value, normalizeText o.text, optionScore target o⟩ : BestOption)
        else st) = st := by
      by_cases hv : o.value = ""
      · rw [if_pos hv]
      · rw [if_neg hv, if_neg (by exact not_lt.mpr ho)]
    rw [hstep]
    exact ih st (fun o' ho' => h o' (by simp [ho']))

theorem findOptionStep_max (target : String) :
    ∀ (l : List OptionEl) (st : BestOption) (j : Nat) (hj : j < l.length),
      (l.get ⟨j, hj⟩).value ≠ "" →
      (∀ k, (hk : k < l.length) → k ≠ j →
        optionScore target (l.get ⟨k, hk⟩) < optionScore target (l.get ⟨j, hj⟩)) →
      st.score < optionScore target (l.get ⟨j, hj⟩) →
      (l.foldl (findOptionStep false [] target) st).value = (l.get ⟨j, hj⟩).value := by
  intro l
  induction l with
  | nil => intro st j hj; exact absurd hj (by simp)
  | cons o rest ih =>
    intro st j hj hv hmax hst
    match j with
    | 0 =>
      have hv0 : o.value ≠ "" := hv
      have hst0 : st.score < optionScore target o := hst
      show (List.foldl (findOptionStep false [] target)
        (findOptionStep false [] target st o) rest).value = o.value
      rw [findOptionStep_nonEmail, if_neg hv0, if_pos hst0]
      rw [findOptionStep_keeps target rest ⟨o.value, normalizeText o.text, optionScore target o⟩ ?hrest]
      case hrest =>
        intro o' ho'
        obtain ⟨k, hget⟩ := List.mem_iff_get.mp ho'
        have hmk := hmax (k.val + 1) (Nat.succ_lt_succ k.isLt) (by omega)
        have hmk2 : optionScore target (rest.get k) < optionScore target o := hmk
        rw [hget] at hmk2
        exact le_of_lt hmk2
    | j' + 1 =>
      rw [List.foldl_cons]
      have hsc : (findOptionStep false [] target st o).score = st.score ∨
          (findOptionStep false [] target st o).score = optionScore target o := by
        rw [findOptionStep_nonEmail]
        by_cases hv2 : o.value = ""
        · rw [if_pos hv2]; left; rfl
        · rw [if_neg hv2]
          by_cases hgt : optionScore target o > st.score
          · rw [if_pos hgt]; right; rfl
          · rw [if_neg hgt]; left; rfl
      have hjr : j' < rest.length := by
        have := hj
        simp only [List.length_cons] at this
        omega
      have hv1 : (rest.get ⟨j', hjr⟩).value ≠ "" := hv
      have hst1 : st.score < optionScore target (rest.get ⟨j', hjr⟩) := hst
      have hmax' : ∀ k, (hk : k < rest.length) → k ≠ j' →
          optionScore target (rest.get ⟨k, hk⟩) < optionScore target (rest.get ⟨j', hjr⟩) := by
        intro k hk hkj
        exact hmax (k + 1) (Nat.succ_lt_succ (by simpa using hk)) (by omega)
      have hst' : (findOptionStep false [] target st o).score <
          optionScore target (rest.get ⟨j', hjr⟩) := by
        have h0 : optionScore target o < optionScore target (rest.get ⟨j', hjr⟩) :=
          hmax 0 (by simp) (by omega)
        rcases hsc with h | h
        · rw [h]; exact hst1
        · rw [h]; exact h0
      exact (ih (findOptionStep false [] target st o) j' hjr hv1 hmax' hst' : _)

/-- C6 counterexample: no correction table exists in the code, and an exact
table hit does NOT take precedence over the heuristic.  With the zone hint
`Villa Maule - Z201`, the option carrying the table's corrected portal label
(`Villa Maule - Zona 201 - Vlan 201`, value `"10"`) loses to a
higher-heuristic-scoring option (value `"20"`): `findOptionId` returns
`"20"`, while the spec-modelled table-first resolver returns `"10"`. -/
theorem C6_counterexample :
    findOptionId [mkOption "10" "Villa Maule - Zona 201 - Vlan 201",
      mkOption "20" "villa maule z201 falso"] "Villa Maule - Z201" = "20" ∧
    resolveOptionSpec [mkOption "10" "Villa Maule - Zona 201 - Vlan 201",
      mkOption "20" "villa maule z201 falso"] "Villa Maule - Z201" = "10" ∧
    (zoneCorrectionTable.lookup (normalizeText "Villa Maule - Z201")).getD "" =
      normalizeText "Villa Maule - Zona 201 - Vlan 201" := by
  refine ⟨?_, ?_, ?_⟩ <;> with_unfolding_all decide

/-- C6 (amended): zone/router/AP names are resolved with no correction table;
for a non-email target the option with the strictly highest combined
similarity-plus-numeric-bonus score (when positive and carrying a non-empty
value) is selected, regardless of whether another option's text equals a
known renaming of the target. -/
theorem C6_best_score_wins (options : List OptionEl) (name : String) (j : Nat)
    (hj : j < options.length)
    (hne : jsIncludes name "@" = false)
    (hv : (options.get ⟨j, hj⟩).value ≠ "")
    (hmax : ∀ k, (hk : k < options.length) → k ≠ j →
      optionScore (normalizeText name) (options.get ⟨k, hk⟩) <
        optionScore (normalizeText name) (options.get ⟨j, hj⟩))
    (hpos : 0 < optionScore (normalizeText name) (options.get ⟨j, hj⟩)) :
    findOptionId options name = (options.get ⟨j, hj⟩).value := by
  unfold findOptionId
  simp only [hne]
  simp only [Bool.false_eq_true, if_false, false_and]
  exact findOptionStep_max (normalizeText name) options ⟨"", "", 0⟩ j hj hv hmax hpos

/-- Witness for C6 (amended) at the spec's resolver example: target
`perez juan` picks option `Juan Perez` (token-set order invariance), the
strict best score. -/
theorem C6_witness :
    findOptionId [mkOption "1" "Juan Perez", mkOption "2" "Maria Lopez"] "perez juan" = "1" := by
  have h := C6_best_score_wins [mkOption "1" "Juan Perez", mkOption "2" "Maria Lopez"]
    "perez juan" 0 (by simp) (by with_unfolding_all decide) (by with_unfolding_all decide)
    ?hmax (by with_unfolding_all decide)
  · exact h
  case hmax =>
    intro k hk hkj
    have hk2 : k < 2 := by simpa using hk
    interval_cases k
    · exact absurd rfl hkj
    · show optionScore (normalizeText "perez juan") (mkOption "2" "Maria Lopez") <
        optionScore (normalizeText "perez juan") (mkOption "1" "Juan Perez")
      with_unfolding_all decide

/-! ### C7 — partial-update merge semantics -/

theorem setField_lookup_isSome_mono (l : List (String × String)) (k v f : String)
    (h : (l.lookup f).isSome) : ((setField l k v).lookup f).isSome := by
  by_cases hk : f = k
  · subst hk
    rw [setField_lookup_self]
    rfl
  · rw [setField_lookup_ne l k v f hk]
    exact h

theorem mergeFold_sent_mono (baseKeys : List String) (updates : List (String × UpdateVal)) :
    ∀ (acc : List (String × String) × List (String × String)) (f : String),
      (acc.2.lookup f).isSome →
      ((updates.foldl (mergeStep baseKeys) acc).2.lookup f).isSome := by
  induction updates with
  | nil => intro acc f h; exact h
  | cons kv rest ih =>
    intro acc f h
    rw [List.foldl_cons]
    apply ih
    unfold mergeStep
    by_cases h0 : kv.fst = ""
    · rw [if_pos h0]; exact h
    · rw [if_neg h0]
      obtain ⟨key, val⟩ := kv
      match val with
      | .undef => exact h
      | .nullv => exact setField_lookup_isSome_mono _ _ _ _ h
      | .str s => exact setField_lookup_isSome_mono _ _ _ _ h

theorem mergeFold_untouched (baseKeys : List String) (updates : List (String × UpdateVal)) :
    ∀ (acc : List (String × String) × List (String × String)) (f : String),
      ((updates.foldl (mergeStep baseKeys) acc).2.lookup f) = none →
      ((updates.foldl (mergeStep baseKeys) acc).1.lookup f) = acc.1.lookup f := by
  induction updates with
  | nil => intro acc f _; rfl
  | cons kv rest ih =>
    intro acc f hnone
    rw [List.foldl_cons] at hnone ⊢
    by_cases h0 : kv.fst = ""
    · have hstep : mergeStep baseKeys acc kv = acc := by
        unfold mergeStep; rw [if_pos h0]
      rw [hstep] at hnone ⊢
      exact ih acc f hnone
    · obtain ⟨key, val⟩ := kv
      match val with
      | .undef =>
        have hstep : mergeStep baseKeys acc (key, .undef) = acc := by
          unfold mergeStep; rw [if_neg h0]
        rw [hstep] at hnone ⊢
        exact ih acc f hnone
      | .nullv =>
        have hstep : mergeStep baseKeys acc (key, .nullv) =
            (setField acc.1 ((mapUpdateToField acc.1 baseKeys key).getD key) "",
             setField acc.2 ((mapUpdateToField acc.1 baseKeys key).getD key) "") := by
          unfold mergeStep; rw [if_neg h0]
        rw [hstep] at hnone ⊢
        have hne : f ≠ (mapUpdateToField acc.1 baseKeys key).getD key := by
          intro heq
          have hsome : ((setField acc.2 ((mapUpdateToField acc.1 baseKeys key).getD key)
              "").lookup f).isSome := by
            rw [heq, setField_lookup_self]
            rfl
          have hfin := mergeFold_sent_mono baseKeys rest
            (setField acc.1 ((mapUpdateToField acc.1 baseKeys key).getD key) "",
             setField acc.2 ((mapUpdateToField acc.1 baseKeys key).getD key) "") f hsome
          rw [hnone] at hfin
          exact absurd hfin (by simp)
        rw [ih _ f hnone]
        exact setField_lookup_ne _ _ _ _ hne
      | .str s =>
        have hstep : mergeStep baseKeys acc (key, .str s) =
            (setField acc.1 ((mapUpdateToField acc.1 baseKeys key).getD key) s,
             setField acc.2 ((mapUpdateToField acc.1 baseKeys key).getD key) s) := by
          unfold mergeStep; rw [if_neg h0]
        rw [hstep] at hnone ⊢
        have hne : f ≠ (mapUpdateToField acc.1 baseKeys key).getD key := by
          intro heq
          have hsome : ((setField acc.2 ((mapUpdateToField acc.1 baseKeys key).getD key)
              s).lookup f).isSome := by
            rw [heq, setField_lookup_self]
            rfl
          have hfin := mergeFold_sent_mono baseKeys rest
            (setField acc.1 ((mapUpdateToField acc.1 baseKeys key).getD key) s,
             setField acc.2 ((mapUpdateToField acc.1 baseKeys key).getD key) s) f hsome
          rw [hnone] at hfin
          exact absurd hfin (by simp)
        rw [ih _ f hnone]
        exact setField_lookup_ne _ _ _ _ hne

/-- C7: merging caller updates into a snapshot sets the resolved field to the
empty string for a `null` update value and to the string rendering otherwise;
every field to which no update was applied (absent from the `finalSentPairs`
record) keeps its snapshot value; and merging an empty update is the
identity, so `merge(merge(s,u),{}) = merge(s,u)`. -/
theorem C7_merge_semantics (base : List (String × String))
    (updates : List (String × UpdateVal)) (k : String) :
    (k ≠ "" →
      ((mergeApply base [(k, .nullv)]).1.lookup
          ((mapUpdateToField base (base.map Prod.fst) k).getD k) = some "" ∧
       (∀ s, (mergeApply base [(k, .str s)]).1.lookup
          ((mapUpdateToField base (base.map Prod.fst) k).getD k) = some s) ∧
       (∀ f, f ≠ (mapUpdateToField base (base.map Prod.fst) k).getD k →
         (mergeApply base [(k, .nullv)]).1.lookup f = base.lookup f ∧
         ∀ s, (mergeApply base [(k, .str s)]).1.lookup f = base.lookup f))) ∧
    (∀ f, (mergeApply base updates).2.lookup f = none →
      (mergeApply base updates).1.lookup f = base.lookup f) ∧
    (mergeApply (mergeApply base updates).1 [] = ((mergeApply base updates).1, [])) := by
  have hnull : mergeApply base [(k, .nullv)] =
      (if k = "" then (base, ([] : List (String × String))) else
        (setField base ((mapUpdateToField base (base.map Prod.fst) k).getD k) "",
         setField [] ((mapUpdateToField base (base.map Prod.fst) k).getD k) "")) := by
    show mergeStep (base.map Prod.fst) (base, []) (k, .nullv) = _
    unfold mergeStep
    by_cases hk : k = ""
    · rw [if_pos hk]
    · rw [if_neg hk]
  have hstr : ∀ s, mergeApply base [(k, .str s)] =
      (if k = "" then (base, ([] : List (String × String))) else
        (setField base ((mapUpdateToField base (base.map Prod.fst) k).getD k) s,
         setField [] ((mapUpdateToField base (base.map Prod.fst) k).getD k) s)) := by
    intro s
    show mergeStep (base.map Prod.fst) (base, []) (k, .str s) = _
    unfold mergeStep
    by_cases hk : k = ""
    · rw [if_pos hk]
    · rw [if_neg hk]
  refine ⟨?_, ?_, rfl⟩
  · intro hk
    rw [hnull, if_neg hk]
    refine ⟨setField_lookup_self _ _ _, ?_, ?_⟩
    · intro s
      rw [hstr s, if_neg hk]
      exact setField_lookup_self _ _ _
    · intro f hf
      refine ⟨setField_lookup_ne _ _ _ _ hf, ?_⟩
      intro s
      rw [hstr s, if_neg hk]
      exact setField_lookup_ne _ _ _ _ hf
  · intro f h
    exact mergeFold_untouched (base.map Prod.fst) updates (base, []) f h

/-- Witness for C7 at the spec's example: merging `{fieldA: null}` onto a
snapshot with `fieldA: "x"` yields `fieldA: ""` while the other field keeps
its snapshot value, and merging `{}` afterwards changes nothing. -/
theorem C7_witness :
    (mergeApply [("fieldA", "x"), ("otro", "y")] [("fieldA", UpdateVal.nullv)]).1.lookup
      "fieldA" = some "" ∧
    (mergeApply [("fieldA", "x"), ("otro", "y")] [("fieldA", UpdateVal.nullv)]).1.lookup
      "otro" = some "y" ∧
    mergeApply (mergeApply [("fieldA", "x"), ("otro", "y")]
        [("fieldA", UpdateVal.nullv)]).1 [] =
      ((mergeApply [("fieldA", "x"), ("otro", "y")] [("fieldA", UpdateVal.nullv)]).1, []) := by
  have h := C7_merge_semantics [("fieldA", "x"), ("otro", "y")] [("fieldA", UpdateVal.nullv)]
    "fieldA"
  have hmap : (mapUpdateToField [("fieldA", "x"), ("otro", "y")]
      ([("fieldA", "x"), ("otro", "y")].map Prod.fst) "fieldA").getD "fieldA" = "fieldA" := by
    with_unfolding_all decide
  obtain ⟨h1, -, h3⟩ := h
  obtain ⟨ha, -, hc⟩ := h1 (by decide)
  rw [hmap] at ha hc
  refine ⟨ha, ?_, h3⟩
  have := (hc "otro" (by decide)).1
  rw [this]
  decide

/-! ### C1 — activation preconditions gate the POST -/

theorem submit_posted_conditions (env : LookupEnv) (t pl : String) (ip : Option String)
    (rid : Nat) (z r a : Option String)
    (h : (submitGeonetActivation env t pl ip rid z r a).1 = true) :
    ip.isSome = true ∧ ∃ rec, findRecordById env.db rid = some rec ∧
      rec.agreedInstallationDate.isSome = true := by
  unfold submitGeonetActivation at h
  split at h
  · simp at h
  next ipv =>
    split at h
    · simp at h
    next rec hrec =>
      split at h
      · simp at h
      next hdate =>
        split at h
        · simp at h
        · split at h
          · simp at h
          · refine ⟨rfl, rec, hrec, ?_⟩
            cases hd : rec.agreedInstallationDate with
            | none => exact absurd hd hdate
            | some d => rfl

theorem submit_ok_posted (env : LookupEnv) (t pl : String) (ip : Option String)
    (rid : Nat) (z r a : Option String) (posted : Bool) (st : Option Int)
    (h : submitGeonetActivation env t pl ip rid z r a = (posted, Except.ok st)) :
    posted = true := by
  unfold submitGeonetActivation at h
  split at h
  · simp at h
  · split at h
    · simp at h
    · split at h
      · simp at h
      · split at h
        · simp at h
        · split at h
          · simp at h
          · split at h
            · simp at h
            · simp at h
              exact h.1

theorem submit_false_error (env : LookupEnv) (t pl : String) (ip : Option String)
    (rid : Nat) (z r a : Option String)
    (h : (submitGeonetActivation env t pl ip rid z r a).1 = false) :
    ∃ e, (submitGeonetActivation env t pl ip rid z r a).2 = Except.error e := by
  cases hs : submitGeonetActivation env t pl ip rid z r a with
  | mk posted res =>
    cases res with
    | error e => exact ⟨e, rfl⟩
    | ok st =>
      exfalso
      have hp : posted = true := submit_ok_posted env t pl ip rid z r a posted st hs
      rw [hs] at h
      simp [hp] at h

theorem lookupActivationCore_split (env : LookupEnv) (p : LookupParams) :
    (∃ e, lookupActivationCore env p = (false, Except.error e)) ∨
    (∃ rid, lookupResolvedRequestId env p = some rid ∧
      lookupTechnicianId env p ≠ "" ∧ lookupPlanId env p ≠ "" ∧
      (submitGeonetActivation env (lookupTechnicianId env p) (lookupPlanId env p)
          (findFirstAvailableIp env.actPage.bodyText) rid
          p.zonaName p.routerName p.apName).1 = (lookupActivationCore env p).1 ∧
      (∀ e, (submitGeonetActivation env (lookupTechnicianId env p) (lookupPlanId env p)
          (findFirstAvailableIp env.actPage.bodyText) rid
          p.zonaName p.routerName p.apName).2 = Except.error e →
        (lookupActivationCore env p).2 = Except.error e)) := by
  unfold lookupActivationCore
  split
  · exact Or.inl ⟨_, rfl⟩
  next rid hrid =>
    split
    · exact Or.inl ⟨_, rfl⟩
    next rec hrec =>
      split
      · exact Or.inl ⟨_, rfl⟩
      next plan hplan =>
        split
        · exact Or.inl ⟨_, rfl⟩
        next hplanne =>
          split
          · exact Or.inl ⟨_, rfl⟩
          · split
            · exact Or.inl ⟨_, rfl⟩
            next hlink =>
              split
              · exact Or.inl ⟨_, rfl⟩
              · split
                · exact Or.inl ⟨_, rfl⟩
                next htech =>
                  split
                  · exact Or.inl ⟨_, rfl⟩
                  next hplid =>
                    split
                    next posted e hsub =>
                      refine Or.inr ⟨rid, hrid, htech, hplid, ?_, ?_⟩
                      · rw [hsub]
                      · intro e' he'
                        rw [hsub] at he'
                        simp only [] at he'
                        rw [show e = e' from by injection he']
                    next posted st hsub =>
                      refine Or.inr ⟨rid, hrid, htech, hplid, ?_, ?_⟩
                      · rw [hsub]
                      · intro e' he'
                        rw [hsub] at he'
                        cases he'

/-- C1: the activation POST is performed only when a technician option id and
a plan option id were resolved from the form's selects, a first available IP
was found on the activation page, and the stored installation request carries
a non-null `agreedInstallationDate`; when any of these is missing, the
attempt ends in an error without the POST having been performed. -/
theorem C1_activation_preconditions (env : LookupEnv) (p : LookupParams) :
    ((lookupActivationCore env p).1 = true →
      lookupTechnicianId env p ≠ "" ∧ lookupPlanId env p ≠ "" ∧
      (findFirstAvailableIp env.actPage.bodyText).isSome = true ∧
      ∃ rid rec, lookupResolvedRequestId env p = some rid ∧
        findRecordById env.db rid = some rec ∧ rec.agreedInstallationDate.isSome = true) ∧
    ((lookupTechnicianId env p = "" ∨ lookupPlanId env p = "" ∨
        findFirstAvailableIp env.actPage.bodyText = none ∨
        (∃ rid rec, lookupResolvedRequestId env p = some rid ∧
          findRecordById env.db rid = some rec ∧ rec.agreedInstallationDate = none)) →
      (lookupActivationCore env p).1 = false ∧
      ∃ e, (lookupActivationCore env p).2 = Except.error e) := by
  have hsplit := lookupActivationCore_split env p
  constructor
  · intro h
    rcases hsplit with ⟨e, hc⟩ | ⟨rid, hrid, htech, hplid, heq, himp⟩
    · rw [hc] at h
      simp at h
    · have hsub1 : (submitGeonetActivation env (lookupTechnicianId env p) (lookupPlanId env p)
          (findFirstAvailableIp env.actPage.bodyText) rid
          p.zonaName p.routerName p.apName).1 = true := by
        rw [heq]
        exact h
      obtain ⟨hip, rec, hrec, hdate⟩ := submit_posted_conditions env
        (lookupTechnicianId env p) (lookupPlanId env p)
        (findFirstAvailableIp env.actPage.bodyText) rid
        p.zonaName p.routerName p.apName hsub1
      exact ⟨htech, hplid, hip, rid, rec, hrid, hrec, hdate⟩
  · intro hd
    rcases hsplit with ⟨e, hc⟩ | ⟨rid, hrid, htech, hplid, heq, himp⟩
    · rw [hc]
      exact ⟨rfl, e, rfl⟩
    · have hsubfalse : (submitGeonetActivation env (lookupTechnicianId env p)
          (lookupPlanId env p) (findFirstAvailableIp env.actPage.bodyText) rid
          p.zonaName p.routerName p.apName).1 = false := by
        cases hb : (submitGeonetActivation env (lookupTechnicianId env p) (lookupPlanId env p)
            (findFirstAvailableIp env.actPage.bodyText) rid
            p.zonaName p.routerName p.apName).1 with
        | false => rfl
        | true =>
          exfalso
          obtain ⟨hip, rec, hrec, hdate⟩ := submit_posted_conditions env
            (lookupTechnicianId env p) (lookupPlanId env p)
            (findFirstAvailableIp env.actPage.bodyText) rid
            p.zonaName p.routerName p.apName hb
          rcases hd with h1 | h2 | h3 | ⟨rid2, rec2, hrid2, hrec2, hdate2⟩
          · exact absurd h1 htech
          · exact absurd h2 hplid
          · rw [h3] at hip
            simp at hip
          · rw [hrid] at hrid2
            obtain rfl : rid = rid2 := by injection hrid2
            rw [hrec] at hrec2
            obtain rfl : rec = rec2 := by injection hrec2
            rw [hdate2] at hdate
            simp at hdate
      obtain ⟨e, he⟩ := submit_false_error env (lookupTechnicianId env p) (lookupPlanId env p)
        (findFirstAvailableIp env.actPage.bodyText) rid
        p.zonaName p.routerName p.apName hsubfalse
      refine ⟨?_, e, himp e he⟩
      rw [← heq]
      exact hsubfalse

/-- Witness for C1: in an environment whose activation page has no selects
(so no technician resolves) the attempt ends in an error and no POST is
performed. -/
theorem C1_witness :
    (lookupActivationCore
      ⟨[⟨1, "Ana", "Torres", some "Plan 50MB", some 5⟩], respWithStatus 200,
        [⟨"/preinstalacion/activar/x/1/", "Ana Torres"⟩], respWithStatus 200,
        ⟨"tok", [], "sin ip disponible"⟩, respWithStatus 200, ⟨"tok", [], ""⟩,
        respWithStatus 302⟩
      ⟨"Ana Torres", "Carlos", none, some 1, none, none, none⟩).1 = false ∧
    ∃ e, (lookupActivationCore
      ⟨[⟨1, "Ana", "Torres", some "Plan 50MB", some 5⟩], respWithStatus 200,
        [⟨"/preinstalacion/activar/x/1/", "Ana Torres"⟩], respWithStatus 200,
        ⟨"tok", [], "sin ip disponible"⟩, respWithStatus 200, ⟨"tok", [], ""⟩,
        respWithStatus 302⟩
      ⟨"Ana Torres", "Carlos", none, some 1, none, none, none⟩).2 = Except.error e :=
  (C1_activation_preconditions _ _).2 (Or.inl (by with_unfolding_all decide))

end Geonet
